import Mathlib

/-!
Verification of the `iot-cli` device data-plane against its specification.

The Go sources are embedded shallowly: byte slices become `List Nat` (each
element a byte value below 256), machine-integer conversions are explicit
`% 2 ^ w` arithmetic, effectful inputs (the clock, the random message id,
the filesystem, the network) become explicit parameters or state, and
fallible functions return `Option`.
-/

set_option maxRecDepth 100000

namespace IotCli

/-! ## Byte-level helpers (mirroring Go's `encoding/binary`, big-endian) -/

/-- Big-endian encoding of `v` into `w` bytes, most significant byte first.
Mirrors `binary.BigEndian.PutUint32` / `PutUint64`, which store `v mod 2^(8w)`. -/
def toBe : Nat → Nat → List Nat
  | 0, _ => []
  | w + 1, v => toBe w (v / 256) ++ [v % 256]

/-- Big-endian decoding of a byte list. Mirrors `binary.BigEndian.Uint32`/`Uint64`. -/
def beToNat (l : List Nat) : Nat := l.foldl (fun a b => a * 256 + b) 0

theorem length_toBe (w v : Nat) : (toBe w v).length = w := by
  induction w generalizing v with
  | zero => rfl
  | succ w ih => simp [toBe, ih]

theorem beToNat_append (l : List Nat) (b : Nat) :
    beToNat (l ++ [b]) = beToNat l * 256 + b := by
  simp [beToNat, List.foldl_append]

theorem beToNat_toBe (w v : Nat) : beToNat (toBe w v) = v % 256 ^ w := by
  induction w generalizing v with
  | zero => simp [toBe, beToNat, Nat.mod_one]
  | succ w ih =>
      rw [toBe, beToNat_append, ih]
      have h : (256 : Nat) ^ (w + 1) = 256 * 256 ^ w := by ring
      rw [h, Nat.mod_mul]
      omega

/-- Go conversion `int64(u)` of a `uint64` value: values at or above `2^63`
wrap around to negatives. -/
def int64OfUInt64 (u : Nat) : Int :=
  if u < 2 ^ 63 then (u : Int) else (u : Int) - 2 ^ 64

/-- Go conversion `uint64(i)` of an `int64` value: reduction modulo `2^64`. -/
def uint64OfInt64 (i : Int) : Nat := (i % 2 ^ 64).toNat

/-! ## SHA-256 (FIPS 180-4), mirroring Go's `crypto/sha256.Sum256`

Words are naturals kept below `2^32` by explicit reduction; rotations are
expressed arithmetically. -/

/-- Right rotation of a 32-bit word by `k` positions (for `k ≤ 32`). -/
def rotr32 (x k : Nat) : Nat := x / 2 ^ k + x % 2 ^ k * 2 ^ (32 - k)

/-- Choose function of the SHA-256 round. -/
def sha256Ch (x y z : Nat) : Nat := (x &&& y) ^^^ ((x ^^^ 0xffffffff) &&& z)

/-- Majority function of the SHA-256 round. -/
def sha256Maj (x y z : Nat) : Nat := (x &&& y) ^^^ (x &&& z) ^^^ (y &&& z)

/-- Big sigma-0 word mixing function. -/
def bigSigma0 (x : Nat) : Nat := rotr32 x 2 ^^^ rotr32 x 13 ^^^ rotr32 x 22

/-- Big sigma-1 word mixing function. -/
def bigSigma1 (x : Nat) : Nat := rotr32 x 6 ^^^ rotr32 x 11 ^^^ rotr32 x 25

/-- Small sigma-0 schedule mixing function. -/
def smallSigma0 (x : Nat) : Nat := rotr32 x 7 ^^^ rotr32 x 18 ^^^ x / 2 ^ 3

/-- Small sigma-1 schedule mixing function. -/
def smallSigma1 (x : Nat) : Nat := rotr32 x 17 ^^^ rotr32 x 19 ^^^ x / 2 ^ 10

/-- The 64 SHA-256 round constants, written in decimal. -/
def sha256K : List Nat :=
  [1116352408, 1899447441, 3049323471, 3921009573, 961987163,
   1508970993, 2453635748, 2870763221, 3624381080, 310598401,
   607225278, 1426881987, 1925078388, 2162078206, 2614888103,
   3248222580, 3835390401, 4022224774, 264347078, 604807628,
   770255983, 1249150122, 1555081692, 1996064986, 2554220882,
   2821834349, 2952996808, 3210313671, 3336571891, 3584528711,
   113926993, 338241895, 666307205, 773529912, 1294757372,
   1396182291, 1695183700, 1986661051, 2177026350, 2456956037,
   2730485921, 2820302411, 3259730800, 3345764771, 3516065817,
   3600352804, 4094571909, 275423344, 430227734, 506948616,
   659060556, 883997877, 958139571, 1322822218, 1537002063,
   1747873779, 1955562222, 2024104815, 2227730452, 2361852424,
   2428436474, 2756734187, 3204031479, 3329325298]

/-- Working state of the SHA-256 compression function (eight 32-bit words). -/
structure Sha256State where
  sa : Nat
  sb : Nat
  sc : Nat
  sd : Nat
  se : Nat
  sf : Nat
  sg : Nat
  sh : Nat
deriving Repr, DecidableEq

/-- Initial SHA-256 hash value, written in decimal. -/
def sha256H0 : Sha256State :=
  ⟨1779033703, 3144134277, 1013904242, 2773480762,
   1359893119, 2600822924, 528734635, 1541459225⟩

/-- Groups a byte list into big-endian 32-bit words (trailing remainder dropped;
blocks are always a multiple of four bytes). -/
def toWords : List Nat → List Nat
  | b0 :: b1 :: b2 :: b3 :: rest => beToNat [b0, b1, b2, b3] :: toWords rest
  | _ => []

/-- Appends one extended message-schedule word. -/
def scheduleStep (ws : List Nat) : List Nat :=
  ws ++ [(smallSigma1 (ws.getD (ws.length - 2) 0) + ws.getD (ws.length - 7) 0 +
          smallSigma0 (ws.getD (ws.length - 15) 0) + ws.getD (ws.length - 16) 0) % 2 ^ 32]

/-- Extends the 16-word schedule by `n` further words. -/
def extendSchedule : Nat → List Nat → List Nat
  | 0, ws => ws
  | n + 1, ws => extendSchedule n (scheduleStep ws)

/-- One SHA-256 compression round, fed a round-constant/schedule-word pair. -/
def compressRound (st : Sha256State) (kw : Nat × Nat) : Sha256State :=
  let t1 := (st.sh + bigSigma1 st.se + sha256Ch st.se st.sf st.sg + kw.1 + kw.2) % 2 ^ 32
  let t2 := (bigSigma0 st.sa + sha256Maj st.sa st.sb st.sc) % 2 ^ 32
  ⟨(t1 + t2) % 2 ^ 32, st.sa, st.sb, st.sc, (st.sd + t1) % 2 ^ 32, st.se, st.sf, st.sg⟩

/-- Processes one 64-byte block into the running hash state. -/
def processBlock (h : Sha256State) (block : List Nat) : Sha256State :=
  let ws := extendSchedule 48 (toWords block)
  let st := (sha256K.zip ws).foldl compressRound h
  ⟨(h.sa + st.sa) % 2 ^ 32, (h.sb + st.sb) % 2 ^ 32, (h.sc + st.sc) % 2 ^ 32,
   (h.sd + st.sd) % 2 ^ 32, (h.se + st.se) % 2 ^ 32, (h.sf + st.sf) % 2 ^ 32,
   (h.sg + st.sg) % 2 ^ 32, (h.sh + st.sh) % 2 ^ 32⟩

/-- Splits a byte list into 64-byte blocks; `fuel` bounds the number of blocks
(structural recursion so that the kernel can evaluate it). -/
def toBlocksGo : Nat → List Nat → List (List Nat)
  | 0, _ => []
  | _ + 1, [] => []
  | fuel + 1, l => l.take 64 :: toBlocksGo fuel (l.drop 64)

/-- Splits a byte list into 64-byte blocks. -/
def toBlocks (l : List Nat) : List (List Nat) := toBlocksGo l.length l

/-- Number of zero bytes in the SHA-256 padding for a message of `len` bytes. -/
def sha256PadZeros (len : Nat) : Nat := (64 - (len + 9) % 64) % 64

/-- SHA-256 digest of a byte list, as a 32-byte list. Mirrors `sha256.Sum256`. -/
def sha256 (m : List Nat) : List Nat :=
  let padded := m ++ 0x80 :: List.replicate (sha256PadZeros m.length) 0 ++
    toBe 8 (8 * m.length)
  let h := (toBlocks padded).foldl processBlock sha256H0
  toBe 4 h.sa ++ toBe 4 h.sb ++ toBe 4 h.sc ++ toBe 4 h.sd ++
  toBe 4 h.se ++ toBe 4 h.sf ++ toBe 4 h.sg ++ toBe 4 h.sh

theorem length_sha256 (m : List Nat) : (sha256 m).length = 32 := by
  simp [sha256, length_toBe]

/-- Known-answer test anchoring the SHA-256 embedding: the digest of the
empty message. -/
theorem sha256_empty_vector :
    sha256 [] =
      [227, 176, 196, 66, 152, 252, 28, 20, 154, 251, 244, 200,
       153, 111, 185, 36, 39, 174, 65, 228, 100, 155, 147, 76,
       164, 149, 153, 27, 120, 82, 184, 85] := by
  decide

/-- Known-answer test anchoring the SHA-256 embedding: the digest of the
three-byte message "abc". -/
theorem sha256_abc_vector :
    sha256 [97, 98, 99] =
      [186, 120, 22, 191, 143, 1, 207, 234, 65, 65, 64, 222,
       93, 174, 34, 35, 176, 3, 97, 163, 150, 23, 122, 156,
       180, 16, 255, 97, 242, 0, 21, 173] := by
  decide

/-! ## Binary message codec (Go `internal/terminal` package, `ParseMessage` /
`BuildMessage`)

Go strings are byte sequences, so the `messageType` field is modelled as a
`List Nat` of bytes. The clock (`time.Now().UnixMilli()`) and the random
message id (`rand.Read`) are effects; they become explicit parameters
`createdAt` and `messageId` of the embedded `BuildMessage`. -/

def HeaderLength : Nat := 120

def MessageTypeLength : Nat := 32

def MessageIDLength : Nat := 16

def PayloadDigestLength : Nat := 32

def SchemaVersion : Nat := 1

/-- Byte sequence of the Go string constant `MessageTypeOutputStream =
"output_stream_data"`. -/
def MessageTypeOutputStream : List Nat :=
  [0x6f, 0x75, 0x74, 0x70, 0x75, 0x74, 0x5f, 0x73, 0x74, 0x72, 0x65, 0x61,
   0x6d, 0x5f, 0x64, 0x61, 0x74, 0x61]

def PayloadTypeOutput : Nat := 1

def PayloadTypeSize : Nat := 3

def PayloadTypeExitCode : Nat := 12

/-- Parsed wire frame, mirroring the Go struct `AgentMessage`. Fields read via
`int(binary.BigEndian.Uint32(...))` are naturals; fields read via
`int64(binary.BigEndian.Uint64(...))` are integers (they can wrap negative). -/
structure AgentMessage where
  headerLength : Nat
  messageType : List Nat
  schemaVersion : Nat
  createdDate : Int
  sequenceNumber : Int
  flags : Int
  messageID : List Nat
  payloadDigest : List Nat
  payloadType : Nat
  payloadLength : Nat
  payload : List Nat
deriving Repr, DecidableEq

/-- Mirrors Go `trimNullBytes`: the bytes of the field up to (excluding) the
first null byte, or the whole field if it contains none. -/
def trimNullBytes : List Nat → List Nat
  | [] => []
  | c :: rest => if c = 0 then [] else c :: trimNullBytes rest

/-- Mirrors Go `ParseMessage`: fails only when the input is shorter than the
120-byte header; otherwise reads every field at its fixed big-endian offset.
The payload is populated only when the declared length fits in the remaining
buffer, otherwise it is left empty. -/
def ParseMessage (data : List Nat) : Option AgentMessage :=
  if data.length < HeaderLength then none
  else
    let plen := beToNat ((data.drop 116).take 4)
    some
      { headerLength := beToNat (data.take 4)
        messageType := trimNullBytes ((data.drop 4).take MessageTypeLength)
        schemaVersion := beToNat ((data.drop 36).take 4)
        createdDate := int64OfUInt64 (beToNat ((data.drop 40).take 8))
        sequenceNumber := int64OfUInt64 (beToNat ((data.drop 48).take 8))
        flags := int64OfUInt64 (beToNat ((data.drop 56).take 8))
        messageID := (data.drop 64).take MessageIDLength
        payloadDigest := (data.drop 80).take PayloadDigestLength
        payloadType := beToNat ((data.drop 112).take 4)
        payloadLength := plen
        payload := if HeaderLength + plen ≤ data.length
                   then (data.drop HeaderLength).take plen else [] }

/-- The fixed 32-byte message-type field: `copy(buf[4:36], messageType)` into a
zero-initialised buffer copies at most 32 bytes and leaves the rest null. -/
def msgTypeField (messageType : List Nat) : List Nat :=
  messageType.take MessageTypeLength ++
  List.replicate (MessageTypeLength - messageType.length) 0

/-- Mirrors Go `BuildMessage`: serialises all header fields big-endian and
appends the payload verbatim. `createdAt` stands for the sampled clock
(`uint64(time.Now().UnixMilli())`) and `messageId` for the 16 random bytes
written by `rand.Read`. -/
def BuildMessage (messageType : List Nat) (payloadType : Nat) (payload : List Nat)
    (sequenceNumber : Int) (createdAt : Nat) (messageId : List Nat) : List Nat :=
  toBe 4 HeaderLength ++
  msgTypeField messageType ++
  toBe 4 SchemaVersion ++
  toBe 8 createdAt ++
  toBe 8 (uint64OfInt64 sequenceNumber) ++
  toBe 8 0 ++
  messageId ++
  sha256 payload ++
  toBe 4 payloadType ++
  toBe 4 payload.length ++
  payload

theorem length_msgTypeField (mt : List Nat) : (msgTypeField mt).length = 32 := by
  simp only [msgTypeField, MessageTypeLength, List.length_append, List.length_take,
    List.length_replicate]
  omega

theorem uint64OfInt64_lt (i : Int) : uint64OfInt64 i < 2 ^ 64 := by
  unfold uint64OfInt64
  have h1 : (0 : Int) ≤ i % 2 ^ 64 := Int.emod_nonneg i (by norm_num)
  have h2 : i % 2 ^ 64 < 2 ^ 64 := Int.emod_lt_of_pos i (by norm_num)
  omega

theorem beToNat_toBe32 (v : Nat) : beToNat (toBe 4 v) = v % 2 ^ 32 := by
  rw [beToNat_toBe]; norm_num

theorem beToNat_toBe64 (v : Nat) : beToNat (toBe 8 v) = v % 2 ^ 64 := by
  rw [beToNat_toBe]; norm_num

theorem length_BuildMessage (mt : List Nat) (pt : Nat) (payload : List Nat)
    (seq : Int) (t : Nat) (mid : List Nat) (hmid : mid.length = 16) :
    (BuildMessage mt pt payload seq t mid).length = 120 + payload.length := by
  simp only [BuildMessage, List.length_append, length_toBe, length_msgTypeField,
    length_sha256, hmid]

/-- Parsing a built frame: the complete field-by-field description of
`ParseMessage (BuildMessage ...)`, before any roundtrip hypotheses. -/
theorem parse_build (mt : List Nat) (pt : Nat) (payload : List Nat) (seq : Int)
    (t : Nat) (mid : List Nat) (hmid : mid.length = 16) :
    ParseMessage (BuildMessage mt pt payload seq t mid) =
      some { headerLength := HeaderLength
             messageType := trimNullBytes (msgTypeField mt)
             schemaVersion := SchemaVersion
             createdDate := int64OfUInt64 (t % 2 ^ 64)
             sequenceNumber := int64OfUInt64 (uint64OfInt64 seq)
             flags := int64OfUInt64 0
             messageID := mid
             payloadDigest := sha256 payload
             payloadType := pt % 2 ^ 32
             payloadLength := payload.length % 2 ^ 32
             payload := payload.take (payload.length % 2 ^ 32) } := by
  have e0 : BuildMessage mt pt payload seq t mid =
      toBe 4 HeaderLength ++ (msgTypeField mt ++ (toBe 4 SchemaVersion ++ (toBe 8 t ++
      (toBe 8 (uint64OfInt64 seq) ++ (toBe 8 0 ++ (mid ++ (sha256 payload ++
      (toBe 4 pt ++ (toBe 4 payload.length ++ payload))))))))) := by
    simp only [BuildMessage, List.append_assoc]
  have hBlen := length_BuildMessage mt pt payload seq t mid hmid
  have d4 : (BuildMessage mt pt payload seq t mid).drop 4 =
      msgTypeField mt ++ (toBe 4 SchemaVersion ++ (toBe 8 t ++
      (toBe 8 (uint64OfInt64 seq) ++ (toBe 8 0 ++ (mid ++ (sha256 payload ++
      (toBe 4 pt ++ (toBe 4 payload.length ++ payload)))))))) := by
    rw [e0]; exact List.drop_left' (length_toBe 4 _)
  have d36 : (BuildMessage mt pt payload seq t mid).drop 36 =
      toBe 4 SchemaVersion ++ (toBe 8 t ++
      (toBe 8 (uint64OfInt64 seq) ++ (toBe 8 0 ++ (mid ++ (sha256 payload ++
      (toBe 4 pt ++ (toBe 4 payload.length ++ payload))))))) := by
    have h := List.drop_drop 32 4 (BuildMessage mt pt payload seq t mid)
    rw [d4, List.drop_left' (length_msgTypeField mt)] at h
    exact h.symm
  have d40 : (BuildMessage mt pt payload seq t mid).drop 40 =
      toBe 8 t ++ (toBe 8 (uint64OfInt64 seq) ++ (toBe 8 0 ++ (mid ++ (sha256 payload ++
      (toBe 4 pt ++ (toBe 4 payload.length ++ payload)))))) := by
    have h := List.drop_drop 4 36 (BuildMessage mt pt payload seq t mid)
    rw [d36, List.drop_left' (length_toBe 4 _)] at h
    exact h.symm
  have d48 : (BuildMessage mt pt payload seq t mid).drop 48 =
      toBe 8 (uint64OfInt64 seq) ++ (toBe 8 0 ++ (mid ++ (sha256 payload ++
      (toBe 4 pt ++ (toBe 4 payload.length ++ payload))))) := by
    have h := List.drop_drop 8 40 (BuildMessage mt pt payload seq t mid)
    rw [d40, List.drop_left' (length_toBe 8 _)] at h
    exact h.symm
  have d56 : (BuildMessage mt pt payload seq t mid).drop 56 =
      toBe 8 0 ++ (mid ++ (sha256 payload ++
      (toBe 4 pt ++ (toBe 4 payload.length ++ payload)))) := by
    have h := List.drop_drop 8 48 (BuildMessage mt pt payload seq t mid)
    rw [d48, List.drop_left' (length_toBe 8 _)] at h
    exact h.symm
  have d64 : (BuildMessage mt pt payload seq t mid).drop 64 =
      mid ++ (sha256 payload ++ (toBe 4 pt ++ (toBe 4 payload.length ++ payload))) := by
    have h := List.drop_drop 8 56 (BuildMessage mt pt payload seq t mid)
    rw [d56, List.drop_left' (length_toBe 8 _)] at h
    exact h.symm
  have d80 : (BuildMessage mt pt payload seq t mid).drop 80 =
      sha256 payload ++ (toBe 4 pt ++ (toBe 4 payload.length ++ payload)) := by
    have h := List.drop_drop 16 64 (BuildMessage mt pt payload seq t mid)
    rw [d64, List.drop_left' hmid] at h
    exact h.symm
  have d112 : (BuildMessage mt pt payload seq t mid).drop 112 =
      toBe 4 pt ++ (toBe 4 payload.length ++ payload) := by
    have h := List.drop_drop 32 80 (BuildMessage mt pt payload seq t mid)
    rw [d80, List.drop_left' (length_sha256 payload)] at h
    exact h.symm
  have d116 : (BuildMessage mt pt payload seq t mid).drop 116 =
      toBe 4 payload.length ++ payload := by
    have h := List.drop_drop 4 112 (BuildMessage mt pt payload seq t mid)
    rw [d112, List.drop_left' (length_toBe 4 _)] at h
    exact h.symm
  have d120 : (BuildMessage mt pt payload seq t mid).drop 120 = payload := by
    have h := List.drop_drop 4 116 (BuildMessage mt pt payload seq t mid)
    rw [d116, List.drop_left' (length_toBe 4 _)] at h
    exact h.symm
  have hplen : beToNat (((BuildMessage mt pt payload seq t mid).drop 116).take 4) =
      payload.length % 2 ^ 32 := by
    rw [d116, List.take_left' (length_toBe 4 _), beToNat_toBe32]
  simp only [ParseMessage]
  rw [if_neg (by rw [hBlen]; simp only [HeaderLength]; omega)]
  simp only [Option.some.injEq, AgentMessage.mk.injEq]
  refine ⟨?_, ?_, ?_, ?_, ?_, ?_, ?_, ?_, ?_, ?_, ?_⟩
  · rw [e0, List.take_left' (length_toBe 4 _), beToNat_toBe32]
    simp [HeaderLength]
  · rw [d4]
    simp only [MessageTypeLength]
    rw [List.take_left' (length_msgTypeField mt)]
  · rw [d36, List.take_left' (length_toBe 4 _), beToNat_toBe32]
    simp [SchemaVersion]
  · rw [d40, List.take_left' (length_toBe 8 _), beToNat_toBe64]
  · rw [d48, List.take_left' (length_toBe 8 _), beToNat_toBe64,
      Nat.mod_eq_of_lt (uint64OfInt64_lt seq)]
  · rw [d56, List.take_left' (length_toBe 8 _), beToNat_toBe64]
    norm_num
  · rw [d64]
    simp only [MessageIDLength]
    rw [List.take_left' hmid]
  · rw [d80]
    simp only [PayloadDigestLength]
    rw [List.take_left' (length_sha256 payload)]
  · rw [d112, List.take_left' (length_toBe 4 _), beToNat_toBe32]
  · exact hplen
  · have hcond : HeaderLength + payload.length % 2 ^ 32 ≤
        (BuildMessage mt pt payload seq t mid).length := by
      rw [hBlen]
      simp only [HeaderLength]
      exact Nat.add_le_add_left (Nat.mod_le _ _) 120
    rw [hplen, if_pos hcond]
    simp only [HeaderLength]
    rw [d120]

theorem trimNullBytes_append_replicate (mt : List Nat) (k : Nat) (h : 0 ∉ mt) :
    trimNullBytes (mt ++ List.replicate k 0) = mt := by
  induction mt with
  | nil =>
      cases k with
      | zero => rfl
      | succ k => simp [trimNullBytes, List.replicate_succ]
  | cons c rest ih =>
      have hc : c ≠ 0 := fun hc => h (hc ▸ List.mem_cons_self c rest)
      simp only [List.cons_append, trimNullBytes, if_neg hc, List.append_eq]
      rw [ih (fun hm => h (List.mem_cons_of_mem c hm))]

theorem trimNullBytes_not_mem_zero (l : List Nat) : 0 ∉ trimNullBytes l := by
  induction l with
  | nil => simp [trimNullBytes]
  | cons c rest ih =>
      by_cases hc : c = 0
      · simp [trimNullBytes, hc]
      · simp only [trimNullBytes, if_neg hc, List.mem_cons, not_or]
        exact ⟨fun h => hc h.symm, ih⟩

theorem length_trimNullBytes_le (l : List Nat) : (trimNullBytes l).length ≤ l.length := by
  induction l with
  | nil => simp [trimNullBytes]
  | cons c rest ih =>
      by_cases hc : c = 0
      · simp [trimNullBytes, hc]
      · simp only [trimNullBytes, if_neg hc, List.length_cons]
        omega

theorem trimNullBytes_msgTypeField (mt : List Nat) (hlen : mt.length ≤ 32)
    (hnull : 0 ∉ mt) : trimNullBytes (msgTypeField mt) = mt := by
  unfold msgTypeField
  simp only [MessageTypeLength]
  rw [List.take_of_length_le hlen, trimNullBytes_append_replicate mt _ hnull]

theorem trimNullBytes_msgTypeField_iff (mt : List Nat) :
    trimNullBytes (msgTypeField mt) = mt ↔ mt.length ≤ 32 ∧ 0 ∉ mt := by
  constructor
  · intro h
    refine ⟨?_, ?_⟩
    · have h1 := length_trimNullBytes_le (msgTypeField mt)
      rw [h, length_msgTypeField] at h1
      exact h1
    · rw [← h]
      exact trimNullBytes_not_mem_zero _
  · intro ⟨h1, h2⟩
    exact trimNullBytes_msgTypeField mt h1 h2

theorem int64_roundtrip (seq : Int) (h1 : -(2 ^ 63) ≤ seq) (h2 : seq < 2 ^ 63) :
    int64OfUInt64 (uint64OfInt64 seq) = seq := by
  unfold int64OfUInt64 uint64OfInt64
  have e : (2 : Int) ^ 64 = 18446744073709551616 := by norm_num
  have e2 : (2 : Nat) ^ 63 = 9223372036854775808 := by norm_num
  have e3 : (2 : Int) ^ 63 = 9223372036854775808 := by norm_num
  rw [e, e2, e3] at *
  split <;> omega

/-- C1: for every payload byte sequence and every (64-bit) sequence number,
parsing the bytes produced by `BuildMessage` with a message type that fits the
32-byte field and any 32-bit payload type yields a frame whose message type,
payload type, sequence number, and payload bytes equal the originals exactly.
The `createdAt` clock sample and 16-byte random message id are explicit
parameters of the embedded builder. -/
theorem claim_C1_build_parse_roundtrip
    (mt : List Nat) (pt : Nat) (payload : List Nat) (seq : Int) (t : Nat)
    (mid : List Nat)
    (hmtLen : mt.length ≤ 32) (hmtNull : 0 ∉ mt)
    (hpt : pt < 2 ^ 32) (hpl : payload.length < 2 ^ 32)
    (hseqLo : -(2 ^ 63) ≤ seq) (hseqHi : seq < 2 ^ 63)
    (hmid : mid.length = 16) :
    ∃ msg : AgentMessage,
      ParseMessage (BuildMessage mt pt payload seq t mid) = some msg ∧
      msg.messageType = mt ∧ msg.payloadType = pt ∧
      msg.sequenceNumber = seq ∧ msg.payload = payload := by
  refine ⟨_, parse_build mt pt payload seq t mid hmid, ?_, ?_, ?_, ?_⟩
  · exact trimNullBytes_msgTypeField mt hmtLen hmtNull
  · exact Nat.mod_eq_of_lt hpt
  · exact int64_roundtrip seq hseqLo hseqHi
  · rw [Nat.mod_eq_of_lt hpl]
    exact List.take_length payload

/-- Witness for C1 at a concrete input: the protocol's own message type
constant, payload type `Output`, payload `[1, 2, 3]`, sequence number 5. -/
theorem claim_C1_build_parse_roundtrip_witness :
    ∃ msg : AgentMessage,
      ParseMessage (BuildMessage MessageTypeOutputStream PayloadTypeOutput
        [1, 2, 3] 5 1700000000000 (List.replicate 16 7)) = some msg ∧
      msg.messageType = MessageTypeOutputStream ∧
      msg.payloadType = PayloadTypeOutput ∧
      msg.sequenceNumber = 5 ∧ msg.payload = [1, 2, 3] :=
  claim_C1_build_parse_roundtrip MessageTypeOutputStream PayloadTypeOutput
    [1, 2, 3] 5 1700000000000 (List.replicate 16 7)
    (by decide) (by decide) (by decide) (by decide)
    (by decide) (by decide) (by decide)

/-- C7: every frame produced by `BuildMessage` embeds a `payloadDigest` equal
to the SHA-256 hash of its payload, while `ParseMessage` rejects a frame only
for being shorter than the header — it never inspects the digest, so a frame
with a mismatched digest is accepted. -/
theorem claim_C7_digest_embedded_never_verified :
    (∀ (mt : List Nat) (pt : Nat) (payload : List Nat) (seq : Int) (t : Nat)
       (mid : List Nat), mid.length = 16 →
       (ParseMessage (BuildMessage mt pt payload seq t mid)).map
         AgentMessage.payloadDigest = some (sha256 payload)) ∧
    (∀ data : List Nat, ParseMessage data = none ↔ data.length < HeaderLength) := by
  constructor
  · intro mt pt payload seq t mid hmid
    rw [parse_build mt pt payload seq t mid hmid]
    rfl
  · intro data
    by_cases h : data.length < HeaderLength
    · simp [ParseMessage, h]
    · simp [ParseMessage, h]

/-- Witness for C7 at concrete inputs: a built frame's digest field is the
SHA-256 of its payload, and the empty input is rejected as too short. -/
theorem claim_C7_digest_embedded_never_verified_witness :
    (ParseMessage (BuildMessage [] 1 [2] 0 0 (List.replicate 16 0))).map
      AgentMessage.payloadDigest = some (sha256 [2]) ∧
    (ParseMessage [] = none ↔ ([] : List Nat).length < HeaderLength) :=
  ⟨claim_C7_digest_embedded_never_verified.1 [] 1 [2] 0 0 (List.replicate 16 0)
      (by decide),
   claim_C7_digest_embedded_never_verified.2 []⟩

/-- C10 counterexample: a message type of exactly 32 non-null bytes survives
the build-then-parse round trip even though it is not shorter than 32 bytes,
refuting the claimed "shorter than 32 bytes" boundary. -/
theorem claim_C10_counterexample :
    (ParseMessage (BuildMessage (List.replicate 32 65) 1 [] 0 0
        (List.replicate 16 0))).map AgentMessage.messageType =
      some (List.replicate 32 65) ∧
    ¬ (List.replicate 32 65 : List Nat).length < 32 := by
  constructor
  · decide
  · decide

/-- C10 (amended): `BuildMessage` truncates message types longer than 32
bytes into the fixed null-padded field and `ParseMessage` recovers the type
only up to the first null byte, so the message type survives a
build-then-parse round trip exactly if and only if it is at most 32 bytes
long and contains no null byte. -/
theorem claim_C10_messageType_roundtrip_iff
    (mt : List Nat) (pt : Nat) (payload : List Nat) (seq : Int) (t : Nat)
    (mid : List Nat) (hmid : mid.length = 16) :
    (ParseMessage (BuildMessage mt pt payload seq t mid)).map
        AgentMessage.messageType = some (trimNullBytes (msgTypeField mt)) ∧
    ((ParseMessage (BuildMessage mt pt payload seq t mid)).map
        AgentMessage.messageType = some mt ↔ mt.length ≤ 32 ∧ 0 ∉ mt) := by
  rw [parse_build mt pt payload seq t mid hmid]
  exact ⟨rfl, Iff.trans Option.some_inj (trimNullBytes_msgTypeField_iff mt)⟩

/-- Witness for the amended C10 at a concrete input: a short null-free
message type round trips. -/
theorem claim_C10_messageType_roundtrip_iff_witness :
    (ParseMessage (BuildMessage [65, 66] 1 [] 0 0
        (List.replicate 16 0))).map AgentMessage.messageType =
      some (trimNullBytes (msgTypeField [65, 66])) ∧
    ((ParseMessage (BuildMessage [65, 66] 1 [] 0 0
        (List.replicate 16 0))).map AgentMessage.messageType = some [65, 66] ↔
      ([65, 66] : List Nat).length ≤ 32 ∧ 0 ∉ ([65, 66] : List Nat)) :=
  claim_C10_messageType_roundtrip_iff [65, 66] 1 [] 0 0 (List.replicate 16 0)
    (by decide)

/-! ## Bandwidth limit parser (Go `internal/file` package, `ParseBandwidthLimit`)

Go strings are byte sequences; they are modelled as `List Nat`. The ASCII
fragments of `strings.ToUpper` and `strings.TrimSpace` are embedded directly;
`strconv.ParseFloat` is modelled over exact rationals on Go's decimal literal
grammar (optional sign, digits with at most one dot, optional exponent) —
the special values (inf/NaN) and hexadecimal floats that `ParseFloat` also
accepts never arise from bandwidth strings, and all the spec's examples are
exactly representable, so rational arithmetic agrees with `float64` on them. -/

/-- Byte sequence of a Lean string literal, for writing Go strings readably. -/
def goStr (s : String) : List Nat := s.data.map Char.toNat

/-- ASCII uppercasing of a byte, mirroring `strings.ToUpper` on ASCII input. -/
def toUpperByte (b : Nat) : Nat := if 97 ≤ b ∧ b ≤ 122 then b - 32 else b

/-- ASCII uppercasing of a byte string. -/
def toUpperBytes (l : List Nat) : List Nat := l.map toUpperByte

/-- ASCII whitespace, mirroring `unicode.IsSpace` on ASCII input. -/
def isSpaceByte (b : Nat) : Bool := b = 9 ∨ b = 10 ∨ b = 11 ∨ b = 12 ∨ b = 13 ∨ b = 32

/-- Mirrors `strings.TrimSpace` (ASCII): strips whitespace from both ends. -/
def trimSpace (l : List Nat) : List Nat :=
  ((l.dropWhile isSpaceByte).reverse.dropWhile isSpaceByte).reverse

/-- Mirrors `strings.HasSuffix`. -/
def hasSuffixB (l suf : List Nat) : Bool :=
  decide (suf.length ≤ l.length) && decide (l.drop (l.length - suf.length) = suf)

/-- Mirrors `strings.TrimSuffix`. -/
def trimSuffixB (l suf : List Nat) : List Nat :=
  if hasSuffixB l suf then l.take (l.length - suf.length) else l

/-- Value of an ASCII digit string. -/
def digitsVal (l : List Nat) : Nat := l.foldl (fun a b => a * 10 + (b - 48)) 0

/-- Tests that every byte is an ASCII digit. -/
def allDigits (l : List Nat) : Bool := l.all (fun b => 48 ≤ b && b ≤ 57)

/-- Splits a byte string at the first occurrence of `c`, if any. -/
def splitFirst (c : Nat) : List Nat → Option (List Nat × List Nat)
  | [] => none
  | x :: rest =>
      if x = c then some ([], rest)
      else match splitFirst c rest with
        | some (l, r) => some (x :: l, r)
        | none => none

/-- Mantissa of a decimal literal: digits with at most one dot, at least one
digit overall. The result `(m, s)` denotes the exact value `m / 10 ^ s`. -/
def parseMantissaD (cs : List Nat) : Option (Nat × Nat) :=
  match splitFirst 46 cs with
  | none => if cs ≠ [] ∧ allDigits cs then some (digitsVal cs, 0) else none
  | some (ip, fp) =>
      if (ip ≠ [] ∨ fp ≠ []) ∧ allDigits ip ∧ allDigits fp then
        some (digitsVal (ip ++ fp), fp.length)
      else none

/-- Exact scaled-decimal model of `strconv.ParseFloat` on Go's decimal
floating literal grammar: optional sign, mantissa, optional `e`/`E`
exponent. The result `(n, s)` denotes the exact value `n / 10 ^ s`; the
spec's bandwidth strings are all exactly representable in `float64`
arithmetic, where this model and the Go code agree. -/
def parseFloatD (cs : List Nat) : Option (Int × Nat) :=
  match cs with
  | [] => none
  | _ =>
    let sgn := match cs with
      | 45 :: rest => (true, rest)
      | 43 :: rest => (false, rest)
      | _ => (false, cs)
    let esplit := match splitFirst 69 sgn.2 with
      | some p => some p
      | none => splitFirst 101 sgn.2
    let applySign := fun (p : Nat × Nat) =>
      (if sgn.1 then -(p.1 : Int) else (p.1 : Int), p.2)
    match esplit with
    | none => (parseMantissaD sgn.2).map applySign
    | some (m, e) =>
        let esgn := match e with
          | 45 :: r => (true, r)
          | 43 :: r => (false, r)
          | _ => (false, e)
        if esgn.2 ≠ [] ∧ allDigits esgn.2 then
          (parseMantissaD m).map (fun p =>
            applySign (if esgn.1 then (p.1, p.2 + digitsVal esgn.2)
                       else (p.1 * 10 ^ digitsVal esgn.2, p.2)))
        else none

/-- Mirrors Go `ParseBandwidthLimit`: empty means unlimited (0); otherwise
uppercase and trim, strip a unit suffix choosing the multiplier exactly in the
source's switch order, parse the numeric part, reject non-positive values, and
truncate `num * multiplier` to an integer byte rate. -/
def ParseBandwidthLimit (s : List Nat) : Option Int :=
  if s = [] then some 0
  else
    let s2 := trimSpace (toUpperBytes s)
    let m := if hasSuffixB s2 (goStr "G") then ((1073741824 : Nat), trimSuffixB s2 (goStr "G"))
      else if hasSuffixB s2 (goStr "GB") then (1073741824, trimSuffixB s2 (goStr "GB"))
      else if hasSuffixB s2 (goStr "M") then (1048576, trimSuffixB s2 (goStr "M"))
      else if hasSuffixB s2 (goStr "MB") then (1048576, trimSuffixB s2 (goStr "MB"))
      else if hasSuffixB s2 (goStr "K") then (1024, trimSuffixB s2 (goStr "K"))
      else if hasSuffixB s2 (goStr "KB") then (1024, trimSuffixB s2 (goStr "KB"))
      else if hasSuffixB s2 (goStr "B") then (1, trimSuffixB s2 (goStr "B"))
      else (1, s2)
    match parseFloatD m.2 with
    | none => none
    | some num =>
        if num.1 ≤ 0 then none
        else some (Int.ofNat (num.1.toNat * m.1 / 10 ^ num.2))

/-- C4: the bandwidth parser maps the spec's examples exactly, rejects its
error examples, and (shown on further inputs) accepts case-insensitive unit
suffixes B, K/KB, M/MB, G/GB with decimal magnitudes, treating empty input as
unlimited and rejecting non-positive or unparsable numeric portions. -/
theorem claim_C4_parse_bandwidth_limit :
    ParseBandwidthLimit (goStr "") = some 0 ∧
    ParseBandwidthLimit (goStr "1024") = some 1024 ∧
    ParseBandwidthLimit (goStr "1K") = some 1024 ∧
    ParseBandwidthLimit (goStr "500K") = some 512000 ∧
    ParseBandwidthLimit (goStr "1M") = some 1048576 ∧
    ParseBandwidthLimit (goStr "1.5M") = some 1572864 ∧
    ParseBandwidthLimit (goStr "1G") = some 1073741824 ∧
    ParseBandwidthLimit (goStr "abc") = none ∧
    ParseBandwidthLimit (goStr "-100K") = none ∧
    ParseBandwidthLimit (goStr "0K") = none ∧
    ParseBandwidthLimit (goStr "1024B") = some 1024 ∧
    ParseBandwidthLimit (goStr "1KB") = some 1024 ∧
    ParseBandwidthLimit (goStr "1MB") = some 1048576 ∧
    ParseBandwidthLimit (goStr "1GB") = some 1073741824 ∧
    ParseBandwidthLimit (goStr "1m") = some 1048576 ∧
    ParseBandwidthLimit (goStr "1gb") = some 1073741824 ∧
    ParseBandwidthLimit (goStr "  500K  ") = some 512000 ∧
    ParseBandwidthLimit (goStr "0.5K") = some 512 ∧
    ParseBandwidthLimit (goStr "-5") = none ∧
    ParseBandwidthLimit (goStr "0") = none ∧
    ParseBandwidthLimit (goStr "0.0M") = none ∧
    ParseBandwidthLimit (goStr "12x") = none ∧
    ParseBandwidthLimit (goStr ".") = none ∧
    ParseBandwidthLimit (goStr "1.2.3K") = none := by
  decide

/-! ## Rate-limited stream adapters (Go `internal/file`, `ThrottledReader.Read`
and `ThrottledWriter.Write`)

Time is an effect: the tokens added by the `elapsed * rate` refill at each
call are drawn from an environment list `env` (one entry per call, zero when
exhausted), and the `time.Sleep` branches simply proceed to the next
iteration. The underlying reader is a byte list yielding up to the requested
count and EOF when empty; the underlying writer follows the `io.Writer`
contract, modelled by a script of per-call acceptance caps (a partial
acceptance is an error, as the contract requires). -/

/-- One `ThrottledReader.Read` call: refill and clamp the bucket, cap the
requested `bufSize` by the bucket, sleep (a zero-byte, no-error read) when no
tokens are available, otherwise read from the source and debit the bucket.
Returns (bytes read, new bucket, remaining source, EOF flag). -/
def ThrottledReaderRead (rate bucket refill bufSize : Nat) (src : List Nat) :
    List Nat × Nat × List Nat × Bool :=
  if min bufSize (min (bucket + refill) rate) = 0 then
    ([], min (bucket + refill) rate, src, false)
  else if src = [] then
    ([], min (bucket + refill) rate, src, true)
  else
    (src.take (min (min bufSize (min (bucket + refill) rate)) src.length),
     min (bucket + refill) rate - min (min bufSize (min (bucket + refill) rate)) src.length,
     src.drop (min (min bufSize (min (bucket + refill) rate)) src.length),
     false)

theorem ThrottledReaderRead_spec (rate bucket refill bufSize : Nat) (src : List Nat) :
    (ThrottledReaderRead rate bucket refill bufSize src).1 ++
      (ThrottledReaderRead rate bucket refill bufSize src).2.2.1 = src ∧
    ((ThrottledReaderRead rate bucket refill bufSize src).2.2.2 = true → src = []) := by
  unfold ThrottledReaderRead
  by_cases h0 : min bufSize (min (bucket + refill) rate) = 0
  · simp [h0]
  · by_cases hsrc : src = [] <;> simp [h0, hsrc, List.take_append_drop]

/-- Copy loop driving `ThrottledReaderRead` with a 32 KB buffer until EOF,
accumulating the bytes read; `fuel` bounds the number of iterations and `none`
means the loop was still running when it ran out. -/
def copyReaderLoop (rate : Nat) :
    Nat → Nat → List Nat → List Nat → List Nat → Option (List Nat)
  | 0, _, _, _, _ => none
  | fuel + 1, bucket, env, src, out =>
      if (ThrottledReaderRead rate bucket (env.headD 0) 32768 src).2.2.2 then
        some (out ++ (ThrottledReaderRead rate bucket (env.headD 0) 32768 src).1)
      else
        copyReaderLoop rate fuel
          (ThrottledReaderRead rate bucket (env.headD 0) 32768 src).2.1 env.tail
          (ThrottledReaderRead rate bucket (env.headD 0) 32768 src).2.2.1
          (out ++ (ThrottledReaderRead rate bucket (env.headD 0) 32768 src).1)

theorem copyReaderLoop_some (rate : Nat) :
    ∀ (fuel bucket : Nat) (env src out res : List Nat),
      copyReaderLoop rate fuel bucket env src out = some res → res = out ++ src := by
  intro fuel
  induction fuel with
  | zero => intro bucket env src out res h; simp [copyReaderLoop] at h
  | succ fuel ih =>
      intro bucket env src out res h
      rw [copyReaderLoop] at h
      obtain ⟨hsum, heofimp⟩ :=
        ThrottledReaderRead_spec rate bucket (env.headD 0) 32768 src
      by_cases heof : (ThrottledReaderRead rate bucket (env.headD 0) 32768 src).2.2.2
      · rw [if_pos heof] at h
        simp only [Option.some_inj] at h
        have hsrc := heofimp heof
        subst hsrc
        obtain ⟨h1, h2⟩ := List.append_eq_nil.mp hsum
        rw [← h, h1]
      · rw [if_neg heof] at h
        have := ih _ _ _ _ _ h
        rw [this, List.append_assoc, hsum]

/-- Acceptance count of one underlying `Write` call: the head of the script
caps how many of the `chunkLen` offered bytes are accepted (an empty script
accepts everything, like `bytes.Buffer`). -/
def writeAccept (script : List Nat) (chunkLen : Nat) : Nat :=
  match script with
  | [] => chunkLen
  | k :: _ => min k chunkLen

/-- Refilled-and-clamped token bucket at the start of a writer iteration. -/
def twBucket (rate bucket refill : Nat) : Nat := min (bucket + refill) rate

/-- Chunk size of one writer iteration: remaining bytes capped by the bucket. -/
def twToWrite (rate bucket refill remaining : Nat) : Nat :=
  min remaining (twBucket rate bucket refill)

/-- Mirrors the loop of `ThrottledWriter.Write` on buffer `p`: refill and
clamp the bucket, compute a chunk bounded by available tokens, sleep when no
tokens are available, write the chunk to the underlying writer (whose
acceptance caps come from `script`; accepting less than the chunk is an error,
per the `io.Writer` contract), debit the accepted bytes, and repeat until the
full buffer is written or an error occurs. Returns (written count, error flag,
bytes received by the underlying writer); `none` means the fuel ran out before
the call returned. -/
def ThrottledWriterWrite (rate : Nat) :
    Nat → Nat → List Nat → List Nat → List Nat → Nat → List Nat →
    Option (Nat × Bool × List Nat)
  | 0, _, _, _, _, _, _ => none
  | fuel + 1, bucket, env, script, p, written, received =>
      if p.length ≤ written then some (written, false, received)
      else if twToWrite rate bucket (env.headD 0) (p.length - written) = 0 then
        ThrottledWriterWrite rate fuel (twBucket rate bucket (env.headD 0))
          env.tail script p written received
      else if writeAccept script (twToWrite rate bucket (env.headD 0) (p.length - written)) <
          twToWrite rate bucket (env.headD 0) (p.length - written) then
        some (written +
            writeAccept script (twToWrite rate bucket (env.headD 0) (p.length - written)),
          true,
          received ++ ((p.drop written).take
              (twToWrite rate bucket (env.headD 0) (p.length - written))).take
            (writeAccept script (twToWrite rate bucket (env.headD 0) (p.length - written))))
      else
        ThrottledWriterWrite rate fuel
          (twBucket rate bucket (env.headD 0) -
            writeAccept script (twToWrite rate bucket (env.headD 0) (p.length - written)))
          env.tail script.tail p
          (written +
            writeAccept script (twToWrite rate bucket (env.headD 0) (p.length - written)))
          (received ++ ((p.drop written).take
              (twToWrite rate bucket (env.headD 0) (p.length - written))).take
            (writeAccept script (twToWrite rate bucket (env.headD 0) (p.length - written))))

theorem writeAccept_le (script : List Nat) (chunkLen : Nat) :
    writeAccept script chunkLen ≤ chunkLen := by
  unfold writeAccept
  match script with
  | [] => exact le_refl _
  | k :: _ => exact min_le_right _ _

theorem ThrottledWriterWrite_some (rate : Nat) :
    ∀ (fuel bucket : Nat) (env script p : List Nat) (written : Nat)
      (received : List Nat) (res : Nat × Bool × List Nat),
      written ≤ p.length → received = p.take written →
      ThrottledWriterWrite rate fuel bucket env script p written received = some res →
      res.2.2 = p.take res.1 ∧ (res.2.1 = false → res.1 = p.length) := by
  intro fuel
  induction fuel with
  | zero =>
      intro bucket env script p written received res hle hrec h
      simp [ThrottledWriterWrite] at h
  | succ fuel ih =>
      intro bucket env script p written received res hle hrec h
      rw [ThrottledWriterWrite] at h
      by_cases hdone : p.length ≤ written
      · rw [if_pos hdone] at h
        simp only [Option.some_inj] at h
        subst h
        have : written = p.length := le_antisymm hle hdone
        subst this
        exact ⟨hrec, fun _ => rfl⟩
      · rw [if_neg hdone] at h
        by_cases h0 : twToWrite rate bucket (env.headD 0) (p.length - written) = 0
        · rw [if_pos h0] at h
          exact ih _ _ _ _ _ _ _ hle hrec h
        · rw [if_neg h0] at h
          have htwle : twToWrite rate bucket (env.headD 0) (p.length - written) ≤
              p.length - written := min_le_left _ _
          have haccle := writeAccept_le script
            (twToWrite rate bucket (env.headD 0) (p.length - written))
          have hrec' : received ++ ((p.drop written).take
              (twToWrite rate bucket (env.headD 0) (p.length - written))).take
              (writeAccept script (twToWrite rate bucket (env.headD 0)
                (p.length - written))) =
              p.take (written + writeAccept script
                (twToWrite rate bucket (env.headD 0) (p.length - written))) := by
            rw [hrec, List.take_take, min_eq_left haccle, List.take_add]
          by_cases herr : writeAccept script
              (twToWrite rate bucket (env.headD 0) (p.length - written)) <
              twToWrite rate bucket (env.headD 0) (p.length - written)
          · rw [if_pos herr] at h
            simp only [Option.some_inj] at h
            subst h
            exact ⟨hrec', fun hf => absurd hf (by simp)⟩
          · rw [if_neg herr] at h
            exact ih _ _ _ _ _ _ _ (by omega) hrec' h

/-- C5: regardless of the rate limit and of how the token bucket refills over
time, the throttled adapters deliver exactly the stream's bytes: a copy loop
driven through `ThrottledReaderRead` that reaches EOF has read every byte of
the source in order, and a `ThrottledWriterWrite` call that returns has handed
the underlying writer exactly a prefix of its buffer — the whole buffer (with
its full length returned) unless the underlying writer reported an error. -/
theorem claim_C5_throttled_transfer_exact :
    (∀ (rate fuel bucket : Nat) (env src res : List Nat),
       copyReaderLoop rate fuel bucket env src [] = some res → res = src) ∧
    (∀ (rate fuel bucket : Nat) (env script p : List Nat)
       (res : Nat × Bool × List Nat),
       ThrottledWriterWrite rate fuel bucket env script p 0 [] = some res →
       res.2.2 = p.take res.1 ∧ (res.2.1 = false → res.1 = p.length)) := by
  constructor
  · intro rate fuel bucket env src res h
    have h2 := copyReaderLoop_some rate fuel bucket env src [] res h
    simpa using h2
  · intro rate fuel bucket env script p res h
    exact ThrottledWriterWrite_some rate fuel bucket env script p 0 [] res
      (Nat.zero_le _) (by simp) h

/-- Witness for C5 at concrete inputs: a three-byte source copied through a
reader throttled at 4 bytes/s, and a three-byte buffer written through a
writer throttled at 2 bytes/s with 2 tokens refilled per iteration. -/
theorem claim_C5_throttled_transfer_exact_witness :
    ([1, 2, 3] : List Nat) = [1, 2, 3] ∧
    (((3, false, [5, 6, 7]) : Nat × Bool × List Nat).2.2 =
        ([5, 6, 7] : List Nat).take (3, false, ([5, 6, 7] : List Nat)).1 ∧
      (((3, false, ([5, 6, 7] : List Nat)) : Nat × Bool × List Nat).2.1 = false →
        ((3, false, ([5, 6, 7] : List Nat)) : Nat × Bool × List Nat).1 =
          ([5, 6, 7] : List Nat).length)) :=
  ⟨claim_C5_throttled_transfer_exact.1 4 10 4 [] [1, 2, 3] [1, 2, 3] (by decide),
   claim_C5_throttled_transfer_exact.2 2 20 2 (List.replicate 20 2) [] [5, 6, 7]
     (3, false, [5, 6, 7]) (by decide)⟩

/-! ## Cancellable copy loop (Go `internal/file`, `CopyWithContext`)

The context is modelled by the number of loop iterations after which the
cancellation signal is observed by the `select` at the top of the loop; the
source is a byte list read in 32 KB chunks (a full chunk is yielded whenever
that much remains, as with the HTTP body and file readers the orchestrator
passes here), and the destination accumulates written bytes. -/

/-- Mirrors `CopyWithContext`: before each chunked read the cancellation
signal is checked; on cancellation the bytes copied so far and a
cancellation error are returned. Returns (bytes written, destination
content, cancellation flag). -/
def CopyWithContext : Nat → List Nat → Nat × List Nat × Bool
  | 0, _ => (0, [], true)
  | cancelAt + 1, src =>
      if src.take 32768 = [] then (0, [], false)
      else
        ((src.take 32768).length + (CopyWithContext cancelAt (src.drop 32768)).1,
         src.take 32768 ++ (CopyWithContext cancelAt (src.drop 32768)).2.1,
         (CopyWithContext cancelAt (src.drop 32768)).2.2)

theorem CopyWithContext_cancelled :
    ∀ (cancelAt : Nat) (src : List Nat), cancelAt * 32768 < src.length →
      (CopyWithContext cancelAt src).2.2 = true ∧
      (CopyWithContext cancelAt src).1 = cancelAt * 32768 ∧
      (CopyWithContext cancelAt src).2.1 =
        src.take (CopyWithContext cancelAt src).1 := by
  intro cancelAt
  induction cancelAt with
  | zero =>
      intro src h
      exact ⟨rfl, rfl, rfl⟩
  | succ k ih =>
      intro src h
      have hlen : 32768 < src.length := by
        have : 32768 ≤ (k + 1) * 32768 := by omega
        omega
      have htake : src.take 32768 ≠ [] := by
        intro hcon
        have := congrArg List.length hcon
        simp only [List.length_take, List.length_nil] at this
        omega
      have hdroplen : (src.drop 32768).length = src.length - 32768 := by
        simp [List.length_drop]
      have hrec := ih (src.drop 32768) (by omega)
      rw [CopyWithContext, if_neg htake]
      have htakelen : (src.take 32768).length = 32768 := by
        simp only [List.length_take]
        omega
      refine ⟨hrec.1, ?_, ?_⟩
      · rw [htakelen, hrec.2.1]
        ring
      · rw [htakelen, hrec.2.1, hrec.2.2, hrec.2.1, List.take_add]

/-- C6: `CopyWithContext` checks the cancellation signal before every chunked
read; when the signal fires after `cancelAt` full 32 KB chunks of a source
that has more bytes than that (in particular any source larger than one chunk
cancelled mid-copy), it returns a cancellation error together with a written
count that is strictly less than the source size, and the bytes already
written to the destination — exactly the prefix copied so far — are not
rolled back. -/
theorem claim_C6_copy_cancelled_partial (src : List Nat) (cancelAt : Nat)
    (hbig : 32768 < src.length) (hmid : cancelAt * 32768 < src.length) :
    (CopyWithContext cancelAt src).2.2 = true ∧
    (CopyWithContext cancelAt src).1 = cancelAt * 32768 ∧
    (CopyWithContext cancelAt src).1 < src.length ∧
    (CopyWithContext cancelAt src).2.1 =
      src.take (CopyWithContext cancelAt src).1 := by
  obtain ⟨h1, h2, h3⟩ := CopyWithContext_cancelled cancelAt src hmid
  exact ⟨h1, h2, by omega, h3⟩

/-- Witness for C6 at a concrete input: a 40000-byte source cancelled after
one 32 KB chunk. -/
theorem claim_C6_copy_cancelled_partial_witness :
    (CopyWithContext 1 (List.replicate 40000 0)).2.2 = true ∧
    (CopyWithContext 1 (List.replicate 40000 0)).1 = 1 * 32768 ∧
    (CopyWithContext 1 (List.replicate 40000 0)).1 <
      (List.replicate 40000 (0 : Nat)).length ∧
    (CopyWithContext 1 (List.replicate 40000 0)).2.1 =
      (List.replicate 40000 (0 : Nat)).take
        (CopyWithContext 1 (List.replicate 40000 0)).1 :=
  claim_C6_copy_cancelled_partial (List.replicate 40000 0) 1
    (by rw [List.length_replicate]; omega) (by rw [List.length_replicate]; omega)

/-! ## Progress reporter (Go `internal/file`, `ProgressWriter.printProgress`
and `ProgressReader.printProgress`)

Only the bar geometry matters to the claims; the bar is modelled as the list
of its cells (`true` = filled). The terminal width probe `term.GetSize` is an
effect, modelled as an `Option Nat` parameter (`none` = the probe failed);
the float `percent` computation is modelled by exact integer division, which
cannot change the bar's cell count. -/

/-- Bar width chosen by `ProgressWriter.printProgress`: 30 columns, switched
to 40 when the terminal width probe succeeds and reports more than 80. -/
def writerBarWidth (termWidth : Option Nat) : Nat :=
  match termWidth with
  | some w => if 80 < w then 40 else 30
  | none => 30

/-- Number of filled cells: `int(percent / 100 * barWidth)` clamped to the
bar width, with `percent = current / total * 100` when the total is known. -/
def barFilled (current total barWidth : Nat) : Nat :=
  min (if 0 < total then current * barWidth / total else 0) barWidth

/-- The bar rendered by `ProgressWriter.printProgress`. -/
def ProgressWriterBar (current total : Nat) (termWidth : Option Nat) : List Bool :=
  List.replicate (barFilled current total (writerBarWidth termWidth)) true ++
  List.replicate (writerBarWidth termWidth -
    barFilled current total (writerBarWidth termWidth)) false

/-- The bar rendered by `ProgressReader.printProgress`: the source hardcodes
`barWidth := 30` and never queries the terminal, so the width parameter is
ignored. -/
def ProgressReaderBar (current total : Nat) (termWidth : Option Nat) : List Bool :=
  List.replicate (barFilled current total 30) true ++
  List.replicate (30 - barFilled current total 30) false

/-- C9 counterexample: on a terminal 100 columns wide, the download-side
writer renders a 40-column bar but the upload-side reader still renders a
30-column bar, refuting the claim that both adapt to 40 columns. -/
theorem claim_C9_counterexample :
    (ProgressWriterBar 50 100 (some 100)).length = 40 ∧
    (ProgressReaderBar 50 100 (some 100)).length = 30 ∧
    (30 : Nat) ≠ 40 := by
  refine ⟨?_, ?_, by decide⟩ <;> decide

/-- C9 (amended): the download-side progress writer's bar is 30 columns by
default and 40 columns when the detected terminal width exceeds 80, while
the upload-side progress reader's bar is always 30 columns regardless of
terminal width. -/
theorem claim_C9_bar_widths :
    (∀ (current total w : Nat), 80 < w →
      (ProgressWriterBar current total (some w)).length = 40) ∧
    (∀ (current total w : Nat), w ≤ 80 →
      (ProgressWriterBar current total (some w)).length = 30) ∧
    (∀ (current total : Nat), (ProgressWriterBar current total none).length = 30) ∧
    (∀ (current total : Nat) (tw : Option Nat),
      (ProgressReaderBar current total tw).length = 30) := by
  have hlen : ∀ (c t bw : Nat),
      (List.replicate (barFilled c t bw) true ++
        List.replicate (bw - barFilled c t bw) false).length = bw := by
    intro c t bw
    have hle : barFilled c t bw ≤ bw := min_le_right _ _
    simp only [List.length_append, List.length_replicate]
    omega
  refine ⟨?_, ?_, ?_, ?_⟩
  · intro current total w hw
    have hbw : writerBarWidth (some w) = 40 := by
      simp [writerBarWidth, hw]
    unfold ProgressWriterBar
    rw [hbw]
    exact hlen current total 40
  · intro current total w hw
    have hbw : writerBarWidth (some w) = 30 := by
      simp [writerBarWidth]
      omega
    unfold ProgressWriterBar
    rw [hbw]
    exact hlen current total 30
  · intro current total
    unfold ProgressWriterBar
    rw [show writerBarWidth none = 30 from rfl]
    exact hlen current total 30
  · intro current total tw
    unfold ProgressReaderBar
    exact hlen current total 30

/-- Witness for the amended C9 at concrete inputs: terminal widths 100, 80,
a failed probe, and the reader at width 100. -/
theorem claim_C9_bar_widths_witness :
    (ProgressWriterBar 10 100 (some 100)).length = 40 ∧
    (ProgressWriterBar 10 100 (some 80)).length = 30 ∧
    (ProgressWriterBar 10 100 none).length = 30 ∧
    (ProgressReaderBar 10 100 (some 100)).length = 30 :=
  ⟨claim_C9_bar_widths.1 10 100 100 (by decide),
   claim_C9_bar_widths.2.1 10 100 80 (by decide),
   claim_C9_bar_widths.2.2.1 10 100,
   claim_C9_bar_widths.2.2.2 10 100 (some 100)⟩

/-! ## Transfer orchestrator (Go `internal/file/transfer.go`)

The remote and local filesystems are trees; the fallible effects — whether a
local path already exists, whether a given remote file's download fails,
whether a given local file's upload fails — are oracle functions in an
environment, standing for the network and `os` errors of the real system.
Every performed side effect is recorded in an action trace so that dry-run
and validation claims can speak about "no network or filesystem mutation".
The per-file byte copy is summarised by its transferred size; fuel bounds the
recursion depth through subdirectories (any fuel above the tree depth gives
the source behaviour). -/

/-- Remote (or local) filesystem node: a file of a given size or a directory
of named entries. -/
inductive RNode where
  | file (size : Nat)
  | dir (entries : List (String × RNode))
deriving Repr

/-- Mirrors the Go struct `TransferOptions`. -/
structure TransferOptions where
  recursive : Bool
  limit : Int
  quiet : Bool
  force : Bool
  dryRun : Bool
  showProgress : Bool
deriving Repr, DecidableEq

/-- Mirrors the Go struct `TransferResult`. Errors are identified by the
failing path together with the kind of failure. -/
inductive TErr where
  | fuel
  | fileExists (p : List String)
  | downloadFailed (p : List String)
  | uploadFailed (p : List String)
  | notDirectory
deriving Repr, DecidableEq

/-- Mirrors the Go struct `TransferResult`. -/
structure TransferResult where
  filesTransferred : Nat
  bytesTransferred : Nat
  errors : List TErr
deriving Repr, DecidableEq

/-- One recorded side effect of the orchestrator. Only `mkdirLocal`,
`writeLocal`, `netMkdir` and `netUpload` mutate anything; `statLocal`,
`readLocal`, `readDirLocal`, `netList`, `netStat`, `netCheckOnline` and
`netDownload` are reads. -/
inductive Action where
  | statLocal (p : List String)
  | mkdirLocal (p : List String)
  | writeLocal (p : List String)
  | readLocal (p : List String)
  | readDirLocal (p : List String)
  | netCheckOnline
  | netStat (p : List String)
  | netList (p : List String)
  | netDownload (p : List String)
  | netMkdir (p : List String)
  | netUpload (p : List String)
deriving Repr, DecidableEq

/-- Tests whether an action mutates the network side or the filesystem. -/
def Action.isMutation : Action → Bool
  | Action.mkdirLocal _ => true
  | Action.writeLocal _ => true
  | Action.netMkdir _ => true
  | Action.netUpload _ => true
  | _ => false

/-- Oracles for the effects of a transfer: which local paths already exist,
and which remote/local file operations fail (standing for network and
filesystem errors such as permission denied). -/
structure TransferEnv where
  localExists : List String → Bool
  downloadFails : List String → Bool
  uploadFails : List String → Bool

/-- Mirrors Go `downloadFile`: dry-run returns before touching the result or
performing any effect; otherwise an existing destination without force is an
error, the parent directory is created, the remote bytes are fetched (the
oracle decides failure) and written to the local file, and the shared result
is updated. -/
def downloadFile (env : TransferEnv) (remotePath localPath : List String)
    (size : Nat) (opts : TransferOptions) (result : TransferResult) :
    Option TErr × TransferResult × List Action :=
  if opts.dryRun then (none, result, [])
  else if ¬opts.force ∧ env.localExists localPath then
    (some (TErr.fileExists localPath), result, [Action.statLocal localPath])
  else
    let t0 := (if opts.force then [] else [Action.statLocal localPath]) ++
      [Action.mkdirLocal localPath.dropLast, Action.netDownload remotePath]
    if env.downloadFails remotePath then
      (some (TErr.downloadFailed remotePath), result, t0)
    else
      (none,
       { result with filesTransferred := result.filesTransferred + 1,
                     bytesTransferred := result.bytesTransferred + size },
       t0 ++ [Action.writeLocal localPath])

/-- The child loop of Go `downloadDirectory`: each entry is dispatched to
`step` (recursion into the tree); a child error is appended to the result's
error list and the loop continues when force is set, otherwise the loop
returns that error at once. -/
def downloadEntries (opts : TransferOptions)
    (step : RNode → List String → List String → TransferResult →
      Option TErr × TransferResult × List Action) :
    List (String × RNode) → List String → List String → TransferResult →
    Option TErr × TransferResult × List Action
  | [], _, _, result => (none, result, [])
  | (name, child) :: rest, remotePath, localPath, result =>
      match step child (remotePath ++ [name]) (localPath ++ [name]) result with
      | (none, result1, acts1) =>
          let r := downloadEntries opts step rest remotePath localPath result1
          (r.1, r.2.1, acts1 ++ r.2.2)
      | (some e, result1, acts1) =>
          if opts.force then
            let r := downloadEntries opts step rest remotePath localPath
              { result1 with errors := result1.errors ++ [e] }
            (r.1, r.2.1, acts1 ++ r.2.2)
          else (some e, result1, acts1)

/-- Mirrors Go `downloadDirectory`/`downloadFile` dispatch on a remote node:
a directory is listed, mirrored locally (skipped under dry-run) and its
entries processed by the child loop; a file goes to `downloadFile`. -/
def downloadNode (env : TransferEnv) (opts : TransferOptions) :
    Nat → RNode → List String → List String → TransferResult →
    Option TErr × TransferResult × List Action
  | 0, _, _, _, result => (some TErr.fuel, result, [])
  | _ + 1, RNode.file size, remotePath, localPath, result =>
      downloadFile env remotePath localPath size opts result
  | fuel + 1, RNode.dir entries, remotePath, localPath, result =>
      let inner := downloadEntries opts (downloadNode env opts fuel) entries
        remotePath localPath result
      (inner.1, inner.2.1,
        Action.netList remotePath ::
          ((if opts.dryRun then [] else [Action.mkdirLocal localPath]) ++ inner.2.2))

/-- Mirrors Go `Download`: the device-online check and the remote stat come
first; a directory without the recursive flag is an error; otherwise the tree
is processed with a fresh result. -/
def Download (env : TransferEnv) (opts : TransferOptions) (fuel : Nat)
    (node : RNode) (remotePath localPath : List String) :
    Option TErr × TransferResult × List Action :=
  let t0 := [Action.netCheckOnline, Action.netStat remotePath]
  match node with
  | RNode.dir _ =>
      if ¬opts.recursive then (some TErr.notDirectory, ⟨0, 0, []⟩, t0)
      else
        let r := downloadNode env opts fuel node remotePath localPath ⟨0, 0, []⟩
        (r.1, r.2.1, t0 ++ r.2.2)
  | RNode.file size =>
      let r := downloadFile env remotePath localPath size opts ⟨0, 0, []⟩
      (r.1, r.2.1, t0 ++ r.2.2)

/-- Mirrors Go `uploadFile`: dry-run returns before touching the result or
performing any effect; otherwise the local file is read whole (the in-memory
multipart buffering), uploaded (the oracle decides failure), and the shared
result is updated. -/
def uploadFile (env : TransferEnv) (localPath remotePath : List String)
    (size : Nat) (opts : TransferOptions) (result : TransferResult) :
    Option TErr × TransferResult × List Action :=
  if opts.dryRun then (none, result, [])
  else
    let t0 := [Action.readLocal localPath, Action.netUpload remotePath]
    if env.uploadFails localPath then
      (some (TErr.uploadFailed localPath), result, t0)
    else
      (none,
       { result with filesTransferred := result.filesTransferred + 1,
                     bytesTransferred := result.bytesTransferred + size },
       t0)

/-- The child loop of Go `uploadDirectory`: same force/error policy as the
download loop. -/
def uploadEntries (opts : TransferOptions)
    (step : RNode → List String → List String → TransferResult →
      Option TErr × TransferResult × List Action) :
    List (String × RNode) → List String → List String → TransferResult →
    Option TErr × TransferResult × List Action
  | [], _, _, result => (none, result, [])
  | (name, child) :: rest, localPath, remotePath, result =>
      match step child (localPath ++ [name]) (remotePath ++ [name]) result with
      | (none, result1, acts1) =>
          let r := uploadEntries opts step rest localPath remotePath result1
          (r.1, r.2.1, acts1 ++ r.2.2)
      | (some e, result1, acts1) =>
          if opts.force then
            let r := uploadEntries opts step rest localPath remotePath
              { result1 with errors := result1.errors ++ [e] }
            (r.1, r.2.1, acts1 ++ r.2.2)
          else (some e, result1, acts1)

/-- Mirrors Go `uploadDirectory`/`uploadFile` dispatch on a local node: a
directory is created remotely (skipped under dry-run; an "already exists"
response is tolerated), read locally, and its entries processed by the child
loop; a file goes to `uploadFile`. -/
def uploadNode (env : TransferEnv) (opts : TransferOptions) :
    Nat → RNode → List String → List String → TransferResult →
    Option TErr × TransferResult × List Action
  | 0, _, _, _, result => (some TErr.fuel, result, [])
  | _ + 1, RNode.file size, localPath, remotePath, result =>
      uploadFile env localPath remotePath size opts result
  | fuel + 1, RNode.dir entries, localPath, remotePath, result =>
      let inner := uploadEntries opts (uploadNode env opts fuel) entries
        localPath remotePath result
      (inner.1, inner.2.1,
        (if opts.dryRun then [] else [Action.netMkdir remotePath]) ++
          (Action.readDirLocal localPath :: inner.2.2))

/-- The path loop of Go `Upload`: each local path is stat'd and dispatched by
its kind — a directory requires the recursive flag — and any error returns
immediately (the force policy applies only inside directory recursion). -/
def UploadLoop (env : TransferEnv) (opts : TransferOptions) (fuel : Nat) :
    List (String × RNode) → List String → TransferResult →
    Option TErr × TransferResult × List Action
  | [], _, result => (none, result, [])
  | (name, node) :: rest, remotePath, result =>
      match node with
      | RNode.dir _ =>
          if ¬opts.recursive then
            (some TErr.notDirectory, result, [Action.statLocal [name]])
          else
            match uploadNode env opts fuel node [name] remotePath result with
            | (some e, result1, acts1) =>
                (some e, result1, Action.statLocal [name] :: acts1)
            | (none, result1, acts1) =>
                let r := UploadLoop env opts fuel rest remotePath result1
                (r.1, r.2.1, (Action.statLocal [name] :: acts1) ++ r.2.2)
      | RNode.file size =>
          match uploadFile env [name] (remotePath ++ [name]) size opts result with
          | (some e, result1, acts1) =>
              (some e, result1, Action.statLocal [name] :: acts1)
          | (none, result1, acts1) =>
              let r := UploadLoop env opts fuel rest remotePath result1
              (r.1, r.2.1, (Action.statLocal [name] :: acts1) ++ r.2.2)

/-- Mirrors Go `Upload`: the device-online check comes first, then the path
loop with a fresh result. -/
def Upload (env : TransferEnv) (opts : TransferOptions) (fuel : Nat)
    (locals : List (String × RNode)) (remotePath : List String) :
    Option TErr × TransferResult × List Action :=
  let r := UploadLoop env opts fuel locals remotePath ⟨0, 0, []⟩
  (r.1, r.2.1, Action.netCheckOnline :: r.2.2)

/-- Wraps a list of named file sizes as directory entries. -/
def fileEntries (entries : List (String × Nat)) : List (String × RNode) :=
  entries.map (fun p => (p.1, RNode.file p.2))

/-- Effect trace of downloading one child file under force (no pre-existence
check): create the parent directory, fetch, and — on success — write. -/
def forceFileTrace (env : TransferEnv) (rp lp : List String)
    (p : String × Nat) : List Action :=
  [Action.mkdirLocal ((lp ++ [p.1]).dropLast), Action.netDownload (rp ++ [p.1])] ++
  (if env.downloadFails (rp ++ [p.1]) then [] else [Action.writeLocal (lp ++ [p.1])])

/-- Effect trace of downloading one child file without force when the
destination does not already exist: stat it, create the parent directory,
fetch, and — on success — write. -/
def plainFileTrace (env : TransferEnv) (rp lp : List String)
    (p : String × Nat) : List Action :=
  [Action.statLocal (lp ++ [p.1]), Action.mkdirLocal ((lp ++ [p.1]).dropLast),
   Action.netDownload (rp ++ [p.1])] ++
  (if env.downloadFails (rp ++ [p.1]) then [] else [Action.writeLocal (lp ++ [p.1])])

theorem downloadNode_file (env : TransferEnv) (opts : TransferOptions)
    (fuel size : Nat) (rp lp : List String) (result : TransferResult)
    (h : 0 < fuel) :
    downloadNode env opts fuel (RNode.file size) rp lp result =
      downloadFile env rp lp size opts result := by
  match fuel, h with
  | f + 1, _ => rfl

theorem uploadNode_file (env : TransferEnv) (opts : TransferOptions)
    (fuel size : Nat) (lp rp : List String) (result : TransferResult)
    (h : 0 < fuel) :
    uploadNode env opts fuel (RNode.file size) lp rp result =
      uploadFile env lp rp size opts result := by
  match fuel, h with
  | f + 1, _ => rfl

theorem downloadEntries_force_spec (env : TransferEnv) (opts : TransferOptions)
    (fuel : Nat) (hforce : opts.force = true) (hdry : opts.dryRun = false)
    (hfuel : 0 < fuel) :
    ∀ (entries : List (String × Nat)) (rp lp : List String)
      (result : TransferResult),
      downloadEntries opts (downloadNode env opts fuel) (fileEntries entries)
          rp lp result =
        (none,
         { filesTransferred := result.filesTransferred +
             (entries.filter (fun p => !env.downloadFails (rp ++ [p.1]))).length,
           bytesTransferred := result.bytesTransferred +
             ((entries.filter (fun p => !env.downloadFails (rp ++ [p.1]))).map
               (fun p => p.2)).sum,
           errors := result.errors ++
             (entries.filter (fun p => env.downloadFails (rp ++ [p.1]))).map
               (fun p => TErr.downloadFailed (rp ++ [p.1])) },
         (entries.map (forceFileTrace env rp lp)).flatten) := by
  intro entries
  induction entries with
  | nil =>
      intro rp lp result
      simp [fileEntries, downloadEntries]
  | cons hd rest ih =>
      intro rp lp result
      obtain ⟨nm, sz⟩ := hd
      simp only [fileEntries, List.map_cons] at *
      rw [downloadEntries, downloadNode_file env opts fuel sz _ _ _ hfuel]
      by_cases hfail : env.downloadFails (rp ++ [nm]) = true
      · rw [show downloadFile env (rp ++ [nm]) (lp ++ [nm]) sz opts result =
            (some (TErr.downloadFailed (rp ++ [nm])), result,
             [Action.mkdirLocal ((lp ++ [nm]).dropLast),
              Action.netDownload (rp ++ [nm])]) by
          simp [downloadFile, hdry, hforce, hfail]]
        dsimp only
        simp only [hforce, if_true]
        rw [ih rp lp { result with errors := result.errors ++
          [TErr.downloadFailed (rp ++ [nm])] }]
        simp [forceFileTrace, hfail, List.filter_cons, List.append_assoc]
      · simp only [Bool.not_eq_true] at hfail
        rw [show downloadFile env (rp ++ [nm]) (lp ++ [nm]) sz opts result =
            (none,
             { result with filesTransferred := result.filesTransferred + 1,
                           bytesTransferred := result.bytesTransferred + sz },
             [Action.mkdirLocal ((lp ++ [nm]).dropLast),
              Action.netDownload (rp ++ [nm]),
              Action.writeLocal (lp ++ [nm])]) by
          simp [downloadFile, hdry, hforce, hfail]]
        dsimp only
        rw [ih rp lp _]
        simp only [List.filter_cons, hfail]
        simp [forceFileTrace, hfail, List.append_assoc]
        constructor
        · omega
        · omega

theorem downloadEntries_noforce_spec (env : TransferEnv) (opts : TransferOptions)
    (fuel : Nat) (hforce : opts.force = false) (hdry : opts.dryRun = false)
    (hfuel : 0 < fuel) (nm : String) (sz : Nat) :
    ∀ (pre : List (String × Nat)) (post : List (String × Nat))
      (rp lp : List String) (result : TransferResult),
      (∀ p ∈ pre, env.localExists (lp ++ [p.1]) = false ∧
        env.downloadFails (rp ++ [p.1]) = false) →
      env.localExists (lp ++ [nm]) = false →
      env.downloadFails (rp ++ [nm]) = true →
      downloadEntries opts (downloadNode env opts fuel)
          (fileEntries (pre ++ (nm, sz) :: post)) rp lp result =
        (some (TErr.downloadFailed (rp ++ [nm])),
         { filesTransferred := result.filesTransferred + pre.length,
           bytesTransferred := result.bytesTransferred +
             (pre.map (fun p => p.2)).sum,
           errors := result.errors },
         (pre.map (plainFileTrace env rp lp)).flatten ++
           [Action.statLocal (lp ++ [nm]),
            Action.mkdirLocal ((lp ++ [nm]).dropLast),
            Action.netDownload (rp ++ [nm])]) := by
  intro pre
  induction pre with
  | nil =>
      intro post rp lp result hpre hexnm hfailnm
      simp only [List.nil_append, fileEntries, List.map_cons]
      rw [downloadEntries, downloadNode_file env opts fuel sz _ _ _ hfuel]
      rw [show downloadFile env (rp ++ [nm]) (lp ++ [nm]) sz opts result =
          (some (TErr.downloadFailed (rp ++ [nm])), result,
           [Action.statLocal (lp ++ [nm]),
            Action.mkdirLocal ((lp ++ [nm]).dropLast),
            Action.netDownload (rp ++ [nm])]) by
        simp [downloadFile, hdry, hforce, hexnm, hfailnm]]
      dsimp only
      simp [hforce]
  | cons hd pre' ih =>
      intro post rp lp result hpre hexnm hfailnm
      obtain ⟨pnm, psz⟩ := hd
      have hhd := hpre (pnm, psz) (List.mem_cons_self _ _)
      simp only [List.cons_append, fileEntries, List.map_cons]
      rw [downloadEntries, downloadNode_file env opts fuel psz _ _ _ hfuel]
      rw [show downloadFile env (rp ++ [pnm]) (lp ++ [pnm]) psz opts result =
          (none,
           { result with filesTransferred := result.filesTransferred + 1,
                         bytesTransferred := result.bytesTransferred + psz },
           [Action.statLocal (lp ++ [pnm]),
            Action.mkdirLocal ((lp ++ [pnm]).dropLast),
            Action.netDownload (rp ++ [pnm]),
            Action.writeLocal (lp ++ [pnm])]) by
        simp [downloadFile, hdry, hforce, hhd.1, hhd.2]]
      dsimp only
      have ihh := ih post rp lp
        { result with filesTransferred := result.filesTransferred + 1,
                      bytesTransferred := result.bytesTransferred + psz }
        (fun p hp => hpre p (List.mem_cons_of_mem _ hp)) hexnm hfailnm
      simp only [fileEntries] at ihh
      rw [ihh]
      simp only [List.map_cons, List.flatten_cons, plainFileTrace, hhd.2]
      simp [List.append_assoc]
      constructor
      · omega
      · omega

/-- Effect trace of uploading one child file: read it and attempt the upload
(identical whether the upload succeeds or fails). -/
def uploadFileTrace (lp rp : List String) (p : String × Nat) : List Action :=
  [Action.readLocal (lp ++ [p.1]), Action.netUpload (rp ++ [p.1])]

theorem uploadEntries_force_spec (env : TransferEnv) (opts : TransferOptions)
    (fuel : Nat) (hforce : opts.force = true) (hdry : opts.dryRun = false)
    (hfuel : 0 < fuel) :
    ∀ (entries : List (String × Nat)) (lp rp : List String)
      (result : TransferResult),
      uploadEntries opts (uploadNode env opts fuel) (fileEntries entries)
          lp rp result =
        (none,
         { filesTransferred := result.filesTransferred +
             (entries.filter (fun p => !env.uploadFails (lp ++ [p.1]))).length,
           bytesTransferred := result.bytesTransferred +
             ((entries.filter (fun p => !env.uploadFails (lp ++ [p.1]))).map
               (fun p => p.2)).sum,
           errors := result.errors ++
             (entries.filter (fun p => env.uploadFails (lp ++ [p.1]))).map
               (fun p => TErr.uploadFailed (lp ++ [p.1])) },
         (entries.map (uploadFileTrace lp rp)).flatten) := by
  intro entries
  induction entries with
  | nil =>
      intro lp rp result
      simp [fileEntries, uploadEntries]
  | cons hd rest ih =>
      intro lp rp result
      obtain ⟨nm, sz⟩ := hd
      simp only [fileEntries, List.map_cons] at *
      rw [uploadEntries, uploadNode_file env opts fuel sz _ _ _ hfuel]
      by_cases hfail : env.uploadFails (lp ++ [nm]) = true
      · rw [show uploadFile env (lp ++ [nm]) (rp ++ [nm]) sz opts result =
            (some (TErr.uploadFailed (lp ++ [nm])), result,
             [Action.readLocal (lp ++ [nm]), Action.netUpload (rp ++ [nm])]) by
          simp [uploadFile, hdry, hfail]]
        dsimp only
        simp only [hforce, if_true]
        rw [ih lp rp { result with errors := result.errors ++
          [TErr.uploadFailed (lp ++ [nm])] }]
        simp [uploadFileTrace, hfail, List.filter_cons, List.append_assoc]
      · simp only [Bool.not_eq_true] at hfail
        rw [show uploadFile env (lp ++ [nm]) (rp ++ [nm]) sz opts result =
            (none,
             { result with filesTransferred := result.filesTransferred + 1,
                           bytesTransferred := result.bytesTransferred + sz },
             [Action.readLocal (lp ++ [nm]), Action.netUpload (rp ++ [nm])]) by
          simp [uploadFile, hdry, hfail]]
        dsimp only
        rw [ih lp rp _]
        simp only [List.filter_cons, hfail]
        simp [uploadFileTrace, List.append_assoc]
        constructor
        · omega
        · omega

theorem uploadEntries_noforce_spec (env : TransferEnv) (opts : TransferOptions)
    (fuel : Nat) (hforce : opts.force = false) (hdry : opts.dryRun = false)
    (hfuel : 0 < fuel) (nm : String) (sz : Nat) :
    ∀ (pre : List (String × Nat)) (post : List (String × Nat))
      (lp rp : List String) (result : TransferResult),
      (∀ p ∈ pre, env.uploadFails (lp ++ [p.1]) = false) →
      env.uploadFails (lp ++ [nm]) = true →
      uploadEntries opts (uploadNode env opts fuel)
          (fileEntries (pre ++ (nm, sz) :: post)) lp rp result =
        (some (TErr.uploadFailed (lp ++ [nm])),
         { filesTransferred := result.filesTransferred + pre.length,
           bytesTransferred := result.bytesTransferred +
             (pre.map (fun p => p.2)).sum,
           errors := result.errors },
         (pre.map (uploadFileTrace lp rp)).flatten ++
           [Action.readLocal (lp ++ [nm]), Action.netUpload (rp ++ [nm])]) := by
  intro pre
  induction pre with
  | nil =>
      intro post lp rp result hpre hfailnm
      simp only [List.nil_append, fileEntries, List.map_cons]
      rw [uploadEntries, uploadNode_file env opts fuel sz _ _ _ hfuel]
      rw [show uploadFile env (lp ++ [nm]) (rp ++ [nm]) sz opts result =
          (some (TErr.uploadFailed (lp ++ [nm])), result,
           [Action.readLocal (lp ++ [nm]), Action.netUpload (rp ++ [nm])]) by
        simp [uploadFile, hdry, hfailnm]]
      dsimp only
      simp [hforce]
  | cons hd pre' ih =>
      intro post lp rp result hpre hfailnm
      obtain ⟨pnm, psz⟩ := hd
      have hhd := hpre (pnm, psz) (List.mem_cons_self _ _)
      simp only [List.cons_append, fileEntries, List.map_cons]
      rw [uploadEntries, uploadNode_file env opts fuel psz _ _ _ hfuel]
      rw [show uploadFile env (lp ++ [pnm]) (rp ++ [pnm]) psz opts result =
          (none,
           { result with filesTransferred := result.filesTransferred + 1,
                         bytesTransferred := result.bytesTransferred + psz },
           [Action.readLocal (lp ++ [pnm]), Action.netUpload (rp ++ [pnm])]) by
        simp [uploadFile, hdry, hhd]]
      dsimp only
      have ihh := ih post lp rp
        { result with filesTransferred := result.filesTransferred + 1,
                      bytesTransferred := result.bytesTransferred + psz }
        (fun p hp => hpre p (List.mem_cons_of_mem _ hp)) hfailnm
      simp only [fileEntries] at ihh
      rw [ihh]
      simp only [List.map_cons, List.flatten_cons, uploadFileTrace]
      simp [List.append_assoc]
      constructor
      · omega
      · omega

/-- C3: in a recursive directory download or upload over sibling file
entries, with force set the loop records every failing child's error (so the
error list strictly grows, in particular it is non-empty when some child
fails) and still processes every remaining sibling — the result counts every
non-failing sibling and the effect trace contains every sibling's actions;
without force the loop returns the first failing child's error immediately —
the result counts exactly the siblings before the failure, the error list is
untouched, and the trace ends at the failing child. -/
theorem claim_C3_partial_failure_policy :
    (∀ (env : TransferEnv) (opts : TransferOptions) (fuel : Nat)
       (entries : List (String × Nat)) (rp lp : List String)
       (result : TransferResult),
       opts.force = true → opts.dryRun = false → 0 < fuel →
       downloadEntries opts (downloadNode env opts fuel) (fileEntries entries)
           rp lp result =
         (none,
          { filesTransferred := result.filesTransferred +
              (entries.filter (fun p => !env.downloadFails (rp ++ [p.1]))).length,
            bytesTransferred := result.bytesTransferred +
              ((entries.filter (fun p => !env.downloadFails (rp ++ [p.1]))).map
                (fun p => p.2)).sum,
            errors := result.errors ++
              (entries.filter (fun p => env.downloadFails (rp ++ [p.1]))).map
                (fun p => TErr.downloadFailed (rp ++ [p.1])) },
          (entries.map (forceFileTrace env rp lp)).flatten) ∧
       ((entries.filter (fun p => env.downloadFails (rp ++ [p.1]))) ≠ [] →
         result.errors.length <
           (downloadEntries opts (downloadNode env opts fuel)
             (fileEntries entries) rp lp result).2.1.errors.length)) ∧
    (∀ (env : TransferEnv) (opts : TransferOptions) (fuel : Nat) (nm : String)
       (sz : Nat) (pre post : List (String × Nat)) (rp lp : List String)
       (result : TransferResult),
       opts.force = false → opts.dryRun = false → 0 < fuel →
       (∀ p ∈ pre, env.localExists (lp ++ [p.1]) = false ∧
         env.downloadFails (rp ++ [p.1]) = false) →
       env.localExists (lp ++ [nm]) = false →
       env.downloadFails (rp ++ [nm]) = true →
       downloadEntries opts (downloadNode env opts fuel)
           (fileEntries (pre ++ (nm, sz) :: post)) rp lp result =
         (some (TErr.downloadFailed (rp ++ [nm])),
          { filesTransferred := result.filesTransferred + pre.length,
            bytesTransferred := result.bytesTransferred +
              (pre.map (fun p => p.2)).sum,
            errors := result.errors },
          (pre.map (plainFileTrace env rp lp)).flatten ++
            [Action.statLocal (lp ++ [nm]),
             Action.mkdirLocal ((lp ++ [nm]).dropLast),
             Action.netDownload (rp ++ [nm])])) ∧
    (∀ (env : TransferEnv) (opts : TransferOptions) (fuel : Nat)
       (entries : List (String × Nat)) (lp rp : List String)
       (result : TransferResult),
       opts.force = true → opts.dryRun = false → 0 < fuel →
       uploadEntries opts (uploadNode env opts fuel) (fileEntries entries)
           lp rp result =
         (none,
          { filesTransferred := result.filesTransferred +
              (entries.filter (fun p => !env.uploadFails (lp ++ [p.1]))).length,
            bytesTransferred := result.bytesTransferred +
              ((entries.filter (fun p => !env.uploadFails (lp ++ [p.1]))).map
                (fun p => p.2)).sum,
            errors := result.errors ++
              (entries.filter (fun p => env.uploadFails (lp ++ [p.1]))).map
                (fun p => TErr.uploadFailed (lp ++ [p.1])) },
          (entries.map (uploadFileTrace lp rp)).flatten) ∧
       ((entries.filter (fun p => env.uploadFails (lp ++ [p.1]))) ≠ [] →
         result.errors.length <
           (uploadEntries opts (uploadNode env opts fuel)
             (fileEntries entries) lp rp result).2.1.errors.length)) ∧
    (∀ (env : TransferEnv) (opts : TransferOptions) (fuel : Nat) (nm : String)
       (sz : Nat) (pre post : List (String × Nat)) (lp rp : List String)
       (result : TransferResult),
       opts.force = false → opts.dryRun = false → 0 < fuel →
       (∀ p ∈ pre, env.uploadFails (lp ++ [p.1]) = false) →
       env.uploadFails (lp ++ [nm]) = true →
       uploadEntries opts (uploadNode env opts fuel)
           (fileEntries (pre ++ (nm, sz) :: post)) lp rp result =
         (some (TErr.uploadFailed (lp ++ [nm])),
          { filesTransferred := result.filesTransferred + pre.length,
            bytesTransferred := result.bytesTransferred +
              (pre.map (fun p => p.2)).sum,
            errors := result.errors },
          (pre.map (uploadFileTrace lp rp)).flatten ++
            [Action.readLocal (lp ++ [nm]), Action.netUpload (rp ++ [nm])])) := by
  refine ⟨?_, ?_, ?_, ?_⟩
  · intro env opts fuel entries rp lp result hforce hdry hfuel
    have hspec := downloadEntries_force_spec env opts fuel hforce hdry hfuel
      entries rp lp result
    refine ⟨hspec, ?_⟩
    intro hne
    rw [hspec]
    simp only [List.length_append]
    have : ((entries.filter (fun p => env.downloadFails (rp ++ [p.1]))).map
        (fun p => TErr.downloadFailed (rp ++ [p.1]))).length ≠ 0 := by
      simp only [List.length_map, ne_eq, List.length_eq_zero]
      exact hne
    omega
  · intro env opts fuel nm sz pre post rp lp result hforce hdry hfuel hpre hex hfail
    exact downloadEntries_noforce_spec env opts fuel hforce hdry hfuel nm sz
      pre post rp lp result hpre hex hfail
  · intro env opts fuel entries lp rp result hforce hdry hfuel
    have hspec := uploadEntries_force_spec env opts fuel hforce hdry hfuel
      entries lp rp result
    refine ⟨hspec, ?_⟩
    intro hne
    rw [hspec]
    simp only [List.length_append]
    have : ((entries.filter (fun p => env.uploadFails (lp ++ [p.1]))).map
        (fun p => TErr.uploadFailed (lp ++ [p.1]))).length ≠ 0 := by
      simp only [List.length_map, ne_eq, List.length_eq_zero]
      exact hne
    omega
  · intro env opts fuel nm sz pre post lp rp result hforce hdry hfuel hpre hfail
    exact uploadEntries_noforce_spec env opts fuel hforce hdry hfuel nm sz
      pre post lp rp result hpre hfail

/-- Effect oracle used by the concrete transfer scenarios: no local path
exists beforehand, and exactly the child named "b" fails to download/upload. -/
def envB : TransferEnv :=
  ⟨fun _ => false, fun p => decide (p = ["b"]), fun p => decide (p = ["b"])⟩

/-- Options with force set (recursive, no throttle, not quiet, no dry-run,
no progress). -/
def optsForce : TransferOptions := ⟨true, 0, false, true, false, false⟩

/-- Options with force unset. -/
def optsNoForce : TransferOptions := ⟨true, 0, false, false, false, false⟩

/-- Witness for C3 at a concrete three-child directory where "b" fails: with
force both loops complete with an error recorded; without force both abort
with the failing child's error. -/
theorem claim_C3_partial_failure_policy_witness :
    (downloadEntries optsForce (downloadNode envB optsForce 1)
      (fileEntries [("a", 1), ("b", 2), ("c", 3)]) [] [] ⟨0, 0, []⟩).1 = none ∧
    (0 : Nat) < (downloadEntries optsForce (downloadNode envB optsForce 1)
      (fileEntries [("a", 1), ("b", 2), ("c", 3)]) [] []
        ⟨0, 0, []⟩).2.1.errors.length ∧
    (downloadEntries optsNoForce (downloadNode envB optsNoForce 1)
      (fileEntries ([("a", 1)] ++ ("b", 2) :: [("c", 3)])) [] []
        ⟨0, 0, []⟩).1 = some (TErr.downloadFailed ["b"]) ∧
    (uploadEntries optsForce (uploadNode envB optsForce 1)
      (fileEntries [("a", 1), ("b", 2), ("c", 3)]) [] [] ⟨0, 0, []⟩).1 = none ∧
    (uploadEntries optsNoForce (uploadNode envB optsNoForce 1)
      (fileEntries ([("a", 1)] ++ ("b", 2) :: [("c", 3)])) [] []
        ⟨0, 0, []⟩).1 = some (TErr.uploadFailed ["b"]) :=
  ⟨congrArg (fun x => x.1)
      ((claim_C3_partial_failure_policy.1 envB optsForce 1
        [("a", 1), ("b", 2), ("c", 3)] [] [] ⟨0, 0, []⟩ rfl rfl (by decide)).1),
   (claim_C3_partial_failure_policy.1 envB optsForce 1
      [("a", 1), ("b", 2), ("c", 3)] [] [] ⟨0, 0, []⟩ rfl rfl (by decide)).2
     (by decide),
   congrArg (fun x => x.1)
     (claim_C3_partial_failure_policy.2.1 envB optsNoForce 1 "b" 2
       [("a", 1)] [("c", 3)] [] [] ⟨0, 0, []⟩ rfl rfl (by decide)
       (by decide) (by decide) (by decide)),
   congrArg (fun x => x.1)
     ((claim_C3_partial_failure_policy.2.2.1 envB optsForce 1
       [("a", 1), ("b", 2), ("c", 3)] [] [] ⟨0, 0, []⟩ rfl rfl (by decide)).1),
   congrArg (fun x => x.1)
     (claim_C3_partial_failure_policy.2.2.2 envB optsNoForce 1 "b" 2
       [("a", 1)] [("c", 3)] [] [] ⟨0, 0, []⟩ rfl rfl (by decide)
       (by decide) (by decide))⟩

/-- Effect oracle where every operation succeeds. -/
def envOk : TransferEnv := ⟨fun _ => false, fun _ => false, fun _ => false⟩

/-- Options with dry-run set. -/
def optsDry : TransferOptions := ⟨true, 0, false, false, true, false⟩

/-- Options without dry-run (otherwise identical to `optsDry`). -/
def optsWet : TransferOptions := ⟨true, 0, false, false, false, false⟩

/-- A remote directory holding two files of 10 and 20 bytes. -/
def worldTwoFiles : RNode := RNode.dir [("a", RNode.file 10), ("b", RNode.file 20)]

/-- C2 (code evaluated at the failing input): a dry-run download of a
directory with two files, and a dry-run upload of two files, do report zero
bytes and perform no network or filesystem mutation — but they also report
`filesTransferred = 0`, whereas the identical non-dry-run calls transfer two
files, so dry-run does not count would-be transfers as the claim (and the
CLI's own "Would transfer %d file(s)" summary) expects. -/
theorem claim_C2_dry_run_divergence :
    (Download envOk optsDry 2 worldTwoFiles ["r"] ["l"]).1 = none ∧
    (Download envOk optsDry 2 worldTwoFiles ["r"] ["l"]).2.1.bytesTransferred = 0 ∧
    (Download envOk optsDry 2 worldTwoFiles ["r"] ["l"]).2.1.filesTransferred = 0 ∧
    ((Download envOk optsDry 2 worldTwoFiles ["r"] ["l"]).2.2.all
      (fun a => !a.isMutation)) = true ∧
    (Download envOk optsWet 2 worldTwoFiles ["r"] ["l"]).2.1.filesTransferred = 2 ∧
    (Upload envOk optsDry 2 [("a", RNode.file 10), ("b", RNode.file 20)]
      ["r"]).1 = none ∧
    (Upload envOk optsDry 2 [("a", RNode.file 10), ("b", RNode.file 20)]
      ["r"]).2.1.bytesTransferred = 0 ∧
    (Upload envOk optsDry 2 [("a", RNode.file 10), ("b", RNode.file 20)]
      ["r"]).2.1.filesTransferred = 0 ∧
    ((Upload envOk optsDry 2 [("a", RNode.file 10), ("b", RNode.file 20)]
      ["r"]).2.2.all (fun a => !a.isMutation)) = true ∧
    (Upload envOk optsWet 2 [("a", RNode.file 10), ("b", RNode.file 20)]
      ["r"]).2.1.filesTransferred = 2 := by
  decide

/-! ## The `put` command (Go `cmd` package, `runPut`, with `internal/file`
`IsRemotePath`/`ParseRemotePath`/`IsDirectory`)

`runPut` validates in source order: remote-path grammar, existence of every
local path (an `os.Stat` per path — a filesystem read), the multi-file/
directory-destination rule, then the bandwidth string; only after all of
these does it reach the network (the upload's device-online check, which
here marks the boundary to the `Upload` call). The action trace records the
stats and that network boundary. -/

/-- Validation errors surfaced by `runPut` before the upload starts. -/
inductive CmdErr where
  | badDest
  | notFound (p : List Nat)
  | multiNonDir
  | badLimit
deriving Repr, DecidableEq

/-- Effects of `runPut` up to the upload boundary: a local stat per source
path, and `network` marking the first network operation of the upload. -/
inductive CmdAction where
  | statLocal (p : List Nat)
  | network
deriving Repr, DecidableEq

/-- Mirrors Go `IsRemotePath`: the string contains a colon and is not a
Windows drive prefix (single letter, colon, backslash). -/
def IsRemotePath (s : List Nat) : Bool :=
  match splitFirst 58 s with
  | none => false
  | some (l, r) =>
      if l.length = 1 ∧ 2 < s.length ∧ r.headD 0 = 92 then false else true

/-- Mirrors Go `ParseRemotePath`: split at the first colon; the device id and
path must be non-empty and the path absolute. -/
def ParseRemotePath (s : List Nat) : Option (List Nat × List Nat) :=
  match splitFirst 58 s with
  | none => none
  | some (device, path) =>
      if device = [] then none
      else if path = [] then none
      else if path.headD 0 ≠ 47 then none
      else some (device, path)

/-- Stats each local path in order, stopping at the first missing one. -/
def statPaths : List (List Nat) → (List Nat → Bool) →
    Option (List Nat) × List CmdAction
  | [], _ => (none, [])
  | p :: rest, st =>
      if st p then
        ((statPaths rest st).1, CmdAction.statLocal p :: (statPaths rest st).2)
      else (some p, [CmdAction.statLocal p])

/-- Mirrors Go `runPut` up to the upload boundary: destination grammar check
and parse, existence stat of every local path, the multi-file
directory-destination rule, the bandwidth parse; a passed validation pipeline
proceeds to the upload, whose first action is the network device-online
check. -/
def runPut (localPaths : List (List Nat)) (dest : List Nat)
    (localStat : List Nat → Bool) (limitStr : List Nat) :
    Option CmdErr × List CmdAction :=
  if IsRemotePath dest = false then (some CmdErr.badDest, [])
  else
    match ParseRemotePath dest with
    | none => (some CmdErr.badDest, [])
    | some devpath =>
        match statPaths localPaths localStat with
        | (some p, acts) => (some (CmdErr.notFound p), acts)
        | (none, acts) =>
            if 1 < localPaths.length ∧ hasSuffixB devpath.2 (goStr "/") = false
            then (some CmdErr.multiNonDir, acts)
            else
              match ParseBandwidthLimit limitStr with
              | none => (some CmdErr.badLimit, acts)
              | some _ => (none, acts ++ [CmdAction.network])

theorem statPaths_all_ok (st : List Nat → Bool) :
    ∀ paths : List (List Nat), (∀ p ∈ paths, st p = true) →
      statPaths paths st = (none, paths.map CmdAction.statLocal) := by
  intro paths
  induction paths with
  | nil => intro h; rfl
  | cons p rest ih =>
      intro h
      have hp := h p (List.mem_cons_self _ _)
      rw [statPaths, if_pos hp, ih (fun q hq => h q (List.mem_cons_of_mem _ hq))]
      rfl

/-- C8 counterexample: uploading two existing local files to the
non-directory destination `dev:/tmp` fails with the multi-file validation
error, but the action trace at that point is not empty — both local paths
were already stat'd, i.e. filesystem (read) activity did occur before the
failure, refuting the claim's "before any network or filesystem activity". -/
theorem claim_C8_counterexample :
    runPut [goStr "a", goStr "b"] (goStr "dev:/tmp") (fun _ => true)
        (goStr "") =
      (some CmdErr.multiNonDir,
       [CmdAction.statLocal (goStr "a"), CmdAction.statLocal (goStr "b")]) ∧
    (runPut [goStr "a", goStr "b"] (goStr "dev:/tmp") (fun _ => true)
      (goStr "")).2 ≠ [] := by
  constructor
  · decide
  · decide

/-- C8 (amended): a `put` of more than one existing local path to a remote
destination that is not directory-style fails with the multi-file validation
error before any network activity and before any filesystem mutation; the
only effects performed first are the existence stats (filesystem reads) of
the local source paths. -/
theorem claim_C8_multi_upload_validation
    (localPaths : List (List Nat)) (dest : List Nat)
    (localStat : List Nat → Bool) (limitStr : List Nat)
    (dev path : List Nat)
    (hmulti : 1 < localPaths.length)
    (hexists : ∀ p ∈ localPaths, localStat p = true)
    (hgrammar : IsRemotePath dest = true)
    (hparse : ParseRemotePath dest = some (dev, path))
    (hnodir : hasSuffixB path (goStr "/") = false) :
    runPut localPaths dest localStat limitStr =
      (some CmdErr.multiNonDir, localPaths.map CmdAction.statLocal) ∧
    CmdAction.network ∉ (runPut localPaths dest localStat limitStr).2 := by
  have hrun : runPut localPaths dest localStat limitStr =
      (some CmdErr.multiNonDir, localPaths.map CmdAction.statLocal) := by
    unfold runPut
    rw [hgrammar]
    simp only [Bool.true_eq_false, if_false]
    rw [hparse]
    rw [statPaths_all_ok localStat localPaths hexists]
    dsimp only
    rw [if_pos ⟨hmulti, hnodir⟩]
  refine ⟨hrun, ?_⟩
  rw [hrun]
  simp only [List.mem_map]
  rintro ⟨p, _, hcon⟩
  exact CmdAction.noConfusion hcon

/-- Witness for the amended C8 at the counterexample's concrete input. -/
theorem claim_C8_multi_upload_validation_witness :
    runPut [goStr "a", goStr "b"] (goStr "dev:/tmp") (fun _ => true)
        (goStr "") =
      (some CmdErr.multiNonDir,
       [goStr "a", goStr "b"].map CmdAction.statLocal) ∧
    CmdAction.network ∉
      (runPut [goStr "a", goStr "b"] (goStr "dev:/tmp") (fun _ => true)
        (goStr "")).2 :=
  claim_C8_multi_upload_validation [goStr "a", goStr "b"] (goStr "dev:/tmp")
    (fun _ => true) (goStr "") (goStr "dev") (goStr "/tmp")
    (by decide) (by intro p _; rfl) (by decide) (by decide) (by decide)

end IotCli
